import Mathlib

/-!
# Aliyun ECS instance plugin: provisioning workflow, tag directory, address selection

A shallow embedding of `plugin/instance/instance.go`.

* Go `map[string]string` values are association lists `TagMap`; the order of
  the list is the (unspecified) iteration order of the Go map, and a list stands
  for a Go map when its keys are pairwise distinct (`TagMap.WF`).
* Go `error` values are their messages (`Error`), a nil error is `none`.
* The ECS client, the SSH client and `json.Unmarshal` live outside the
  repository.  They are fields of `Client σ`: every remote operation is a
  function of its arguments and of an adapter state `σ`, returning its outcome
  and the next state, so that two calls with equal arguments may differ.
* Every remote call is appended, with its outcome, to the trace of the `World`.
* Log statements have no effect on results and are left out.
-/

namespace Aliyun

/-! ## Tag maps -/

/-- Message of a Go `error`. -/
abbrev Error := String

/-- Entries of a Go `map[string]string`, in iteration order. -/
abbrev TagMap := List (String × String)

namespace TagMap

/-- Keys of the map, in iteration order. -/
def keys (m : TagMap) : List String := m.map Prod.fst

/-- A list stands for a Go map when no key occurs twice. -/
def WF (m : TagMap) : Prop := (keys m).Nodup

instance (m : TagMap) : Decidable (WF m) := by unfold WF; infer_instance

/-- Go `v, ok := m[k]`. -/
def get? : TagMap → String → Option String
  | [], _ => none
  | (k', v) :: rest, k => if k' = k then some v else get? rest k

/-- Go `m[k] = v`: overwrite the entry of `k`, or add one. -/
def set : TagMap → String → String → TagMap
  | [], k, v => [(k, v)]
  | (k', v') :: rest, k, v => if k' = k then (k, v) :: rest else (k', v') :: set rest k v

end TagMap

/-- Go `sort.Strings`: ascending order of the strings.  Go compares strings byte by
byte, which on UTF-8 text is the order of the code points compared here.  The order
is total, so the sorted slice is determined by the elements alone, whatever the
sorting algorithm. -/
def sortStrings (keys : List String) : List String :=
  keys.insertionSort (fun a b => a.toList ≤ b.toList)

/-- Body of the inner loop of `mergeTags`: a key not yet in `tags` is appended to
`keys`; the value is written in both cases. -/
def mergeTagsStep (acc : List String × TagMap) (kv : String × String) : List String × TagMap :=
  if (TagMap.get? acc.2 kv.1).isSome then
    (acc.1, TagMap.set acc.2 kv.1 kv.2)
  else
    (acc.1 ++ [kv.1], TagMap.set acc.2 kv.1 kv.2)

/-- Go `mergeTags(tagMaps ...map[string]string) ([]string, map[string]string)`. -/
def mergeTags (tagMaps : List TagMap) : List String × TagMap :=
  let acc := tagMaps.foldl (fun acc tagMap => tagMap.foldl mergeTagsStep acc) ([], [])
  (sortStrings acc.1, acc.2)

/-! ## Data model -/

/-- Go `VolumeTag`: the tag name that associates volume identifiers with disks. -/
def VolumeTag : String := "docker-infrakit-volume"

/-- Go `timeout`. -/
def timeout : Nat := 300

/-- Go `defaultUbuntuImageID`. -/
def defaultUbuntuImageID : String := "ubuntu_160401_64_40G_cloudinit_20161115.vhd"

/-- Go `internetChargeType`. -/
def internetChargeType : String := "PayByTraffic"

/-- Go `ecs.InstanceStatus`. -/
inductive InstanceStatus
  | Creating | Running | Starting | Stopped | Stopping
  deriving DecidableEq, Repr

/-- Go `ecs.TagResourceType`. -/
inductive TagResourceType
  | TagResourceImage | TagResourceInstance | TagResourceSnapshot | TagResourceDisk
  deriving DecidableEq, Repr

/-- Go `ecs.IpAddressSetType`; a nil slice is the empty list. -/
structure IpAddressSetType where
  IpAddress : List String := []
  deriving DecidableEq, Repr

/-- Go `ecs.VpcAttributesType` (the field read by the plugin). -/
structure VpcAttributesType where
  PrivateIpAddress : IpAddressSetType := {}
  deriving DecidableEq, Repr

/-- Go `ecs.EipAddressAssociateType` (the field read by the plugin). -/
structure EipAddressAssociateType where
  IpAddress : String := ""
  deriving DecidableEq, Repr

/-- Go `ecs.TagItemType`. -/
structure TagItemType where
  TagKey : String
  TagValue : String
  deriving DecidableEq, Repr

/-- Go `InstanceAttributesType.Tags`. -/
structure TagSetType where
  Tag : List TagItemType := []
  deriving DecidableEq, Repr

/-- Go `ecs.InstanceAttributesType` (the fields read by the plugin). -/
structure InstanceAttributesType where
  InstanceId : String := ""
  RegionId : String := ""
  InnerIpAddress : IpAddressSetType := {}
  PublicIpAddress : IpAddressSetType := {}
  VpcAttributes : VpcAttributesType := {}
  EipAddress : EipAddressAssociateType := {}
  Tags : TagSetType := {}
  deriving DecidableEq, Repr

/-- Go `ecs.DiskItemType` (the field read by the plugin). -/
structure DiskItemType where
  DiskId : String
  deriving DecidableEq, Repr

/-- Go `common.Pagination`. -/
structure Pagination where
  PageNumber : Int := 0
  PageSize : Int := 0
  deriving DecidableEq, Repr

/-- Go `common.PaginationResult`. -/
structure PaginationResult where
  TotalCount : Int := 0
  PageNumber : Int := 0
  PageSize : Int := 0
  deriving DecidableEq, Repr

/-- Go `ecs.CreateInstanceArgs` (the fields read or written by the plugin). -/
structure CreateInstanceArgs where
  RegionId : String := ""
  ZoneId : String := ""
  ImageId : String := ""
  InstanceType : String := ""
  SecurityGroupId : String := ""
  InternetChargeType : String := ""
  InternetMaxBandwidthOut : Int := 0
  VSwitchId : String := ""
  Password : String := ""
  UserData : String := ""
  ClientToken : String := ""
  deriving DecidableEq, Repr

/-- Go `createInstanceRequest`. -/
structure createInstanceRequest where
  CreateInstanceArgs : CreateInstanceArgs := {}
  Tags : TagMap := []
  deriving DecidableEq, Repr

/-- Go `ecs.DescribeDisksArgs` (the fields set by the plugin); `Portable` is a `*bool`. -/
structure DescribeDisksArgs where
  RegionId : String
  ZoneId : String
  Portable : Option Bool
  Tag : TagMap
  deriving DecidableEq, Repr

/-- Go `ecs.AddTagsArgs`. -/
structure AddTagsArgs where
  RegionId : String
  ResourceId : String
  ResourceType : TagResourceType
  Tag : TagMap
  deriving DecidableEq, Repr

/-- Go `ecs.AttachDiskArgs` (the fields set by the plugin). -/
structure AttachDiskArgs where
  InstanceId : String
  DiskId : String
  deriving DecidableEq, Repr

/-- Go `ecs.DescribeInstancesArgs` (the fields set by the plugin). -/
structure DescribeInstancesArgs where
  RegionId : String
  Tag : TagMap
  Pagination : Pagination
  deriving DecidableEq, Repr

/-- Go `instance.Attachment`. -/
structure Attachment where
  ID : String
  Type_ : String := ""
  deriving DecidableEq, Repr

/-- Go `instance.Spec`; `Properties` is the raw JSON behind a `*types.Any`. -/
structure Spec where
  Properties : Option String := none
  Tags : TagMap := []
  Init : String := ""
  LogicalID : Option String := none
  Attachments : List Attachment := []
  deriving DecidableEq, Repr

/-- Go `instance.Description`; `LogicalID` is a pointer. -/
structure Description where
  ID : String
  LogicalID : Option String
  Tags : TagMap
  deriving DecidableEq, Repr

/-- Go `Provisioner`, without the client. -/
structure Provisioner where
  Region : String := ""
  PrivateIPOnly : Bool := true
  deriving DecidableEq, Repr

/-- Outcome of a Go call returning `(T, error)`: the value is read only when the
error is nil. -/
inductive Outcome (α : Type) where
  | ok (value : α)
  | error (err : Error)
  deriving DecidableEq, Repr

/-! ## The adapter and the trace of remote calls -/

/-- One call on the adapter, with its arguments and its outcome. -/
inductive Event where
  | DescribeDisks (args : DescribeDisksArgs) (out : Outcome (List DiskItemType))
  | GenerateClientToken (token : String)
  | CreateInstance (args : CreateInstanceArgs) (out : Outcome String)
  | WaitForInstance (instanceID : String) (status : InstanceStatus) (timeout : Nat)
      (err : Option Error)
  | AllocatePublicIpAddress (instanceID : String) (out : Outcome String)
  | AddTags (args : AddTagsArgs) (err : Option Error)
  | AttachDisk (args : AttachDiskArgs) (err : Option Error)
  | StartInstance (instanceID : String) (err : Option Error)
  | StopInstance (instanceID : String) (forceStop : Bool) (err : Option Error)
  | DeleteInstance (instanceID : String) (err : Option Error)
  | DescribeInstances (args : DescribeInstancesArgs)
      (out : Outcome (List InstanceAttributesType × Option PaginationResult))
  | DescribeInstanceAttribute (instanceID : String) (out : Outcome InstanceAttributesType)
  | NewSSHClient (user : String) (host : String) (port : Nat) (passwords : List String)
      (err : Option Error)
  | SSHOutput (command : String) (out : Outcome String)
  deriving DecidableEq, Repr

/-- Go `ssh.Client`: the one method the plugin uses. -/
structure SSHClient (σ : Type) where
  Output : String → σ → Outcome String × σ

/-- The collaborators outside the repository.  `σ` is the state of the remote
service; each remote operation maps its arguments and the state to an outcome and
the next state.  `Unmarshal` (`json.Unmarshal` into a `createInstanceRequest`),
`NextPage` (`common.PaginationResult.NextPage`), `FormatAttachments` and
`FormatVolumes` (the `%v` rendering of `fmt`) are pure. -/
structure Client (σ : Type) where
  Unmarshal : String → Outcome createInstanceRequest
  FormatAttachments : List Attachment → String
  FormatVolumes : List DiskItemType → String
  NextPage : PaginationResult → Option Pagination
  DescribeDisks : DescribeDisksArgs → σ → Outcome (List DiskItemType) × σ
  GenerateClientToken : σ → String × σ
  CreateInstance : CreateInstanceArgs → σ → Outcome String × σ
  WaitForInstance : String → InstanceStatus → Nat → σ → Option Error × σ
  AllocatePublicIpAddress : String → σ → Outcome String × σ
  AddTags : AddTagsArgs → σ → Option Error × σ
  AttachDisk : AttachDiskArgs → σ → Option Error × σ
  StartInstance : String → σ → Option Error × σ
  StopInstance : String → Bool → σ → Option Error × σ
  DeleteInstance : String → σ → Option Error × σ
  DescribeInstances : DescribeInstancesArgs → σ →
    Outcome (List InstanceAttributesType × Option PaginationResult) × σ
  DescribeInstanceAttribute : String → σ → Outcome InstanceAttributesType × σ
  NewSSHClient : String → String → Nat → List String → σ → Outcome (SSHClient σ) × σ

/-- State of the remote service together with the calls made so far, oldest first. -/
structure World (σ : Type) where
  state : σ
  trace : List Event := []

variable {σ : Type}

/-- Calls `DescribeDisks` and records it. -/
def callDescribeDisks (c : Client σ) (args : DescribeDisksArgs) (w : World σ) :
    Outcome (List DiskItemType) × World σ :=
  let r := c.DescribeDisks args w.state
  (r.1, ⟨r.2, w.trace ++ [Event.DescribeDisks args r.1]⟩)

/-- Calls `GenerateClientToken` and records it. -/
def callGenerateClientToken (c : Client σ) (w : World σ) : String × World σ :=
  let r := c.GenerateClientToken w.state
  (r.1, ⟨r.2, w.trace ++ [Event.GenerateClientToken r.1]⟩)

/-- Calls `CreateInstance` and records it. -/
def callCreateInstance (c : Client σ) (args : CreateInstanceArgs) (w : World σ) :
    Outcome String × World σ :=
  let r := c.CreateInstance args w.state
  (r.1, ⟨r.2, w.trace ++ [Event.CreateInstance args r.1]⟩)

/-- Calls `WaitForInstance` and records it. -/
def callWaitForInstance (c : Client σ) (instanceID : String) (status : InstanceStatus)
    (t : Nat) (w : World σ) : Option Error × World σ :=
  let r := c.WaitForInstance instanceID status t w.state
  (r.1, ⟨r.2, w.trace ++ [Event.WaitForInstance instanceID status t r.1]⟩)

/-- Calls `AllocatePublicIpAddress` and records it. -/
def callAllocatePublicIpAddress (c : Client σ) (instanceID : String) (w : World σ) :
    Outcome String × World σ :=
  let r := c.AllocatePublicIpAddress instanceID w.state
  (r.1, ⟨r.2, w.trace ++ [Event.AllocatePublicIpAddress instanceID r.1]⟩)

/-- Calls `AddTags` and records it. -/
def callAddTags (c : Client σ) (args : AddTagsArgs) (w : World σ) : Option Error × World σ :=
  let r := c.AddTags args w.state
  (r.1, ⟨r.2, w.trace ++ [Event.AddTags args r.1]⟩)

/-- Calls `AttachDisk` and records it. -/
def callAttachDisk (c : Client σ) (args : AttachDiskArgs) (w : World σ) :
    Option Error × World σ :=
  let r := c.AttachDisk args w.state
  (r.1, ⟨r.2, w.trace ++ [Event.AttachDisk args r.1]⟩)

/-- Calls `StartInstance` and records it. -/
def callStartInstance (c : Client σ) (instanceID : String) (w : World σ) :
    Option Error × World σ :=
  let r := c.StartInstance instanceID w.state
  (r.1, ⟨r.2, w.trace ++ [Event.StartInstance instanceID r.1]⟩)

/-- Calls `StopInstance` and records it. -/
def callStopInstance (c : Client σ) (instanceID : String) (forceStop : Bool) (w : World σ) :
    Option Error × World σ :=
  let r := c.StopInstance instanceID forceStop w.state
  (r.1, ⟨r.2, w.trace ++ [Event.StopInstance instanceID forceStop r.1]⟩)

/-- Calls `DeleteInstance` and records it. -/
def callDeleteInstance (c : Client σ) (instanceID : String) (w : World σ) :
    Option Error × World σ :=
  let r := c.DeleteInstance instanceID w.state
  (r.1, ⟨r.2, w.trace ++ [Event.DeleteInstance instanceID r.1]⟩)

/-- Calls `DescribeInstances` and records it. -/
def callDescribeInstances (c : Client σ) (args : DescribeInstancesArgs) (w : World σ) :
    Outcome (List InstanceAttributesType × Option PaginationResult) × World σ :=
  let r := c.DescribeInstances args w.state
  (r.1, ⟨r.2, w.trace ++ [Event.DescribeInstances args r.1]⟩)

/-- Calls `DescribeInstanceAttribute` and records it. -/
def callDescribeInstanceAttribute (c : Client σ) (instanceID : String) (w : World σ) :
    Outcome InstanceAttributesType × World σ :=
  let r := c.DescribeInstanceAttribute instanceID w.state
  (r.1, ⟨r.2, w.trace ++ [Event.DescribeInstanceAttribute instanceID r.1]⟩)

/-- The error of an outcome, nil on success. -/
def Outcome.err {α : Type} : Outcome α → Option Error
  | .ok _ => none
  | .error e => some e

/-- Calls `ssh.NewClient` and records it. -/
def callNewSSHClient (c : Client σ) (user host : String) (port : Nat) (passwords : List String)
    (w : World σ) : Outcome (SSHClient σ) × World σ :=
  let r := c.NewSSHClient user host port passwords w.state
  (r.1, ⟨r.2, w.trace ++ [Event.NewSSHClient user host port passwords r.1.err]⟩)

/-- Calls `Output` on an SSH client and records it. -/
def callSSHOutput (sshClient : SSHClient σ) (command : String) (w : World σ) :
    Outcome String × World σ :=
  let r := sshClient.Output command w.state
  (r.1, ⟨r.2, w.trace ++ [Event.SSHOutput command r.1]⟩)

/-! ## Operations of the plugin -/

/-- Go `Provisioner.tagInstance`: user tags first, system tags overwrite them. -/
def tagInstance (c : Client σ) (p : Provisioner) (instanceID : String)
    (systemTags userTags : TagMap) (w : World σ) : Option Error × World σ :=
  let tags : TagMap := []
  let tags := userTags.foldl (fun tags kv => TagMap.set tags kv.1 kv.2) tags
  let tags := systemTags.foldl (fun tags kv => TagMap.set tags kv.1 kv.2) tags
  callAddTags c
    { RegionId := p.Region, ResourceId := instanceID,
      ResourceType := TagResourceType.TagResourceInstance, Tag := tags } w

/-- Go `isUserDataSupported`. -/
def isUserDataSupported (args : CreateInstanceArgs) : Bool :=
  args.VSwitchId ≠ ""

/-- Go `Provisioner.getInstanceIP`. -/
def getInstanceIP (p : Provisioner) (inst : InstanceAttributesType) : String :=
  if p.PrivateIPOnly then
    if h : 0 < inst.InnerIpAddress.IpAddress.length then
      inst.InnerIpAddress.IpAddress[0]
    else if h : 0 < inst.VpcAttributes.PrivateIpAddress.IpAddress.length then
      inst.VpcAttributes.PrivateIpAddress.IpAddress[0]
    else
      ""
  else if h : 0 < inst.PublicIpAddress.IpAddress.length then
    inst.PublicIpAddress.IpAddress[0]
  else if 0 < inst.EipAddress.IpAddress.length then
    inst.EipAddress.IpAddress
  else
    ""

/-- Go `Provisioner.describeInstance`. -/
def describeInstance (c : Client σ) (id : String) (w : World σ) :
    Outcome InstanceAttributesType × World σ :=
  match callDescribeInstanceAttribute c id w with
  | (.error err, w1) => (.error err, w1)
  | (.ok result, w1) => (.ok result, w1)

/-- Go `getSSHClient`: password authentication through `ssh.NewClient`. -/
def getSSHClient (c : Client σ) (ipAddr : String) (port : Nat) (userName password : String)
    (w : World σ) : Outcome (SSHClient σ) × World σ :=
  callNewSSHClient c userName ipAddr port [password] w

/-- The loop of `Provision` over `spec.Attachments` (lines 128-142): one tagged
lookup per attachment, the disks found are appended to `volumes`; a failed lookup
ends the loop. -/
def lookupVolumes (c : Client σ) (p : Provisioner) (zoneId : String) :
    List Attachment → TagMap → List DiskItemType → World σ →
      Outcome (List DiskItemType) × World σ
  | [], _, volumes, w => (.ok volumes, w)
  | attachment :: rest, volumeTags, volumes, w =>
    let s := attachment.ID
    let volumeTags := TagMap.set volumeTags VolumeTag s
    match callDescribeDisks c
        { RegionId := p.Region, ZoneId := zoneId, Portable := some true, Tag := volumeTags } w with
    | (.error _, w1) => (.error "Failed while looking up volume", w1)
    | (.ok result, w1) => lookupVolumes c p zoneId rest volumeTags (volumes ++ result) w1

/-- Volume resolution of `Provision` (lines 123-154): the disk ids to attach, or the
error that ends `Provision`. -/
def resolveVolumes (c : Client σ) (p : Provisioner) (request : createInstanceRequest)
    (spec : Spec) (w : World σ) : Outcome (List String) × World σ :=
  let volumeIDs : List String := []
  if 0 < spec.Attachments.length then
    match lookupVolumes c p request.CreateInstanceArgs.ZoneId spec.Attachments [] [] w with
    | (.error err, w1) => (.error err, w1)
    | (.ok volumes, w1) =>
      if volumes.length = spec.Attachments.length then
        (.ok (volumes.foldl (fun volumeIDs volume => volumeIDs ++ [volume.DiskId]) volumeIDs), w1)
      else
        (.error ("Not all required volumes found to attach.  Wanted "
          ++ c.FormatAttachments spec.Attachments ++ ", found " ++ c.FormatVolumes volumes), w1)
  else
    (.ok volumeIDs, w)

/-- The loop of `Provision` over `volumeIDs` (lines 205-214): the first failed
attachment ends the loop with its error. -/
def attachDisks (c : Client σ) (instanceID : String) :
    List String → World σ → Option Error × World σ
  | [], w => (none, w)
  | volumeID :: rest, w =>
    match callAttachDisk c { InstanceId := instanceID, DiskId := volumeID } w with
    | (some err, w1) => (some err, w1)
    | (none, w1) => attachDisks c instanceID rest w1

/-- The parsed request with the region of the provisioner (line 121). -/
def withRegion (p : Provisioner) (request : createInstanceRequest) : createInstanceRequest :=
  { request with CreateInstanceArgs := { request.CreateInstanceArgs with RegionId := p.Region } }

/-- The creation request of `Provision` (lines 156-172) from the parsed
properties, whose region is already set, and the fresh client token. -/
def buildCreateInstanceArgs (p : Provisioner) (spec : Spec) (request : createInstanceRequest)
    (token : String) : CreateInstanceArgs :=
  let args := request.CreateInstanceArgs
  let args := if args.ImageId = "" then { args with ImageId := defaultUbuntuImageID } else args
  let args := { args with ClientToken := token }
  let args :=
    if args.InternetChargeType = "" ∧ args.VSwitchId = "" ∧ ¬ p.PrivateIPOnly then
      { args with InternetChargeType := internetChargeType, InternetMaxBandwidthOut := 1 }
    else args
  if spec.Init ≠ "" ∧ isUserDataSupported args then { args with UserData := spec.Init } else args

/-- Go `Provisioner.Provision`: the instance id (nil is `none`) and the error. -/
def Provision (c : Client σ) (p : Provisioner) (spec : Spec) (w : World σ) :
    (Option String × Option Error) × World σ :=
  match spec.Properties with
  | none => ((none, some "Properties must be set"), w)
  | some raw =>
    match c.Unmarshal raw with
    | .error err => ((none, some ("Invalid input formatting: " ++ err)), w)
    | .ok request =>
      let request := withRegion p request
      match resolveVolumes c p request spec w with
      | (.error err, w1) => ((none, some err), w1)
      | (.ok volumeIDs, w1) =>
        let (token, w2) := callGenerateClientToken c w1
        let args := buildCreateInstanceArgs p spec request token
        let supportsUserData := isUserDataSupported args
        match callCreateInstance c args w2 with
        | (.error err, w3) => ((none, some err), w3)
        | (.ok instanceID, w3) =>
          let id := instanceID
          match callWaitForInstance c instanceID InstanceStatus.Stopped timeout w3 with
          | (some err, w4) => ((some id, some err), w4)
          | (none, w4) =>
            -- the outcome of the allocation is logged only
            let w5 :=
              if ¬ p.PrivateIPOnly ∧ args.VSwitchId = "" then
                (callAllocatePublicIpAddress c instanceID w4).2
              else w4
            let (err, w6) := tagInstance c p instanceID spec.Tags request.Tags w5
            if err ≠ none then ((some id, err), w6)
            else
              match attachDisks c instanceID volumeIDs w6 with
              | (some attachErr, w7) => ((some id, some attachErr), w7)
              | (none, w7) =>
                -- line 216: the error returned by StartInstance is not assigned;
                -- line 217 tests `err`, which still holds the result of tagInstance
                let w8 := (callStartInstance c instanceID w7).2
                if err ≠ none then ((none, err), w8)
                else
                  let (err, w9) :=
                    callWaitForInstance c instanceID InstanceStatus.Running timeout w8
                  if err = none then
                    if spec.Init ≠ "" ∧ ¬ supportsUserData then
                      -- lines 225-243: `err` is redeclared in this block and returned
                      match describeInstance c id w9 with
                      | (.error err, w10) => ((some id, some err), w10)
                      | (.ok inst, w10) =>
                        let ipAddr := getInstanceIP p inst
                        match getSSHClient c ipAddr 22 "root" args.Password w10 with
                        | (.error err, w11) => ((some id, some err), w11)
                        | (.ok sshClient, w11) =>
                          match callSSHOutput sshClient spec.Init w11 with
                          | (.error err, w12) => ((some id, some err), w12)
                          | (.ok _, w12) => ((some id, none), w12)
                    else ((some id, err), w9)
                  else ((some id, err), w9)

/-- Go `Provisioner.Destroy`. -/
def Destroy (c : Client σ) (id : String) (w : World σ) : Option Error × World σ :=
  let instanceID := id
  let (err, w1) := callStopInstance c instanceID false w
  let w2 :=
    if err ≠ none then w1
    else
      -- the error of the wait is declared in the inner block and logged only
      (callWaitForInstance c instanceID InstanceStatus.Stopped timeout w1).2
  match callDeleteInstance c instanceID w2 with
  | (some delErr, w3) =>
    (some ("Failed to delete instance " ++ instanceID ++ ": " ++ delErr), w3)
  | (none, w3) => (err, w3)

/-- Go `Provisioner.describeGroupRequest`: a nil pagination is the zero value. -/
def describeGroupRequest (p : Provisioner) (tags : TagMap) (pagination : Option Pagination) :
    DescribeInstancesArgs :=
  let pagination := match pagination with
    | none => ({} : Pagination)
    | some pg => pg
  { RegionId := p.Region, Tag := tags, Pagination := pagination }

/-- The flat tag map built from a list of tag items (lines 311-314 and 361-364). -/
def flattenTags (items : List TagItemType) : TagMap :=
  items.foldl (fun instanceTags tagItem => TagMap.set instanceTags tagItem.TagKey tagItem.TagValue) []

/-- Body of the loop of `describeInstances` over one page (lines 310-321). -/
def describePage (p : Provisioner) (instances : List InstanceAttributesType) : List Description :=
  instances.foldl (fun descriptions item =>
    let instanceTags := flattenTags item.Tags.Tag
    let ipAddr := getInstanceIP p item
    descriptions ++ [{ ID := item.InstanceId, LogicalID := some ipAddr, Tags := instanceTags }]) []

/-- Go `Provisioner.describeInstances`.  The recursion of the source follows the
pages for as long as the adapter returns a next page; `fuel` bounds the number of
pages read and `none` is returned when it runs out. -/
def describeInstances (c : Client σ) (p : Provisioner) (tags : TagMap) :
    Nat → Option Pagination → World σ → Option (Outcome (List Description)) × World σ
  | 0, _, w => (none, w)
  | fuel + 1, pagination, w =>
    match callDescribeInstances c (describeGroupRequest p tags pagination) w with
    | (.error err, w1) => (some (.error err), w1)
    | (.ok (instances, paginationResult), w1) =>
      let descriptions := describePage p instances
      match paginationResult with
      | none => (some (.ok descriptions), w1)
      | some paginationResult =>
        match c.NextPage paginationResult with
        | none => (some (.ok descriptions), w1)
        | some pagination =>
          match describeInstances c p tags fuel (some pagination) w1 with
          | (none, w2) => (none, w2)
          | (some (.error err), w2) => (some (.error err), w2)
          | (some (.ok remainingPages), w2) => (some (.ok (descriptions ++ remainingPages)), w2)

/-- Go `Provisioner.DescribeInstances`. -/
def DescribeInstances (c : Client σ) (p : Provisioner) (tags : TagMap) (fuel : Nat)
    (w : World σ) : Option (Outcome (List Description)) × World σ :=
  describeInstances c p tags fuel none w

/-- Go `Provisioner.Label`. -/
def Label (c : Client σ) (id : String) (labels : TagMap) (w : World σ) :
    Option Error × World σ :=
  match describeInstance c id w with
  | (.error err, w1) => (some err, w1)
  | (.ok output, w1) =>
    let allTags := flattenTags output.Tags.Tag
    let merged := (mergeTags [allTags, labels]).2
    callAddTags c
      { ResourceId := id, ResourceType := TagResourceType.TagResourceInstance,
        RegionId := output.RegionId, Tag := merged } w1

/-- Whether an event is a call of `DeleteInstance`. -/
def Event.isDeleteInstance : Event → Bool
  | .DeleteInstance _ _ => true
  | _ => false

/-- Whether an event is a call of `AddTags`. -/
def Event.isAddTags : Event → Bool
  | .AddTags _ _ => true
  | _ => false

/-- The value that a list of tag items gives to a key: that of the last item with
this key. -/
def currentTagValue (items : List TagItemType) (k : String) : Option String :=
  (items.reverse.find? (fun t => t.TagKey = k)).map (fun t => t.TagValue)

/-- A finite chain of result pages that the adapter returns successfully:
`PageChain c p tags pagination s pages` holds when, from the state `s`, the request
for `pagination` returns the first page, every page but the last comes with a
pagination result that has a next page, whose request returns the following page,
and the last page has no next page. -/
inductive PageChain (c : Client σ) (p : Provisioner) (tags : TagMap) :
    Option Pagination → σ → List (List InstanceAttributesType) → Prop
  | last (pagination : Option Pagination) (s s1 : σ) (page : List InstanceAttributesType)
      (paginationResult : Option PaginationResult) :
      c.DescribeInstances (describeGroupRequest p tags pagination) s
        = (.ok (page, paginationResult), s1) →
      paginationResult.bind c.NextPage = none →
      PageChain c p tags pagination s [page]
  | next (pagination : Option Pagination) (s s1 : σ) (page : List InstanceAttributesType)
      (paginationResult : PaginationResult) (nextPagination : Pagination)
      (pages : List (List InstanceAttributesType)) :
      c.DescribeInstances (describeGroupRequest p tags pagination) s
        = (.ok (page, some paginationResult), s1) →
      c.NextPage paginationResult = some nextPagination →
      PageChain c p tags (some nextPagination) s1 pages →
      PageChain c p tags pagination s (page :: pages)

/-- The normalized description of one instance: its id, the address chosen by
`getInstanceIP` and its flattened tags. -/
def describeItem (p : Provisioner) (item : InstanceAttributesType) : Description :=
  { ID := item.InstanceId, LogicalID := some (getInstanceIP p item),
    Tags := flattenTags item.Tags.Tag }

/-! ## Shapes of the traces of `Provision` -/

/-- Whether an event is a call of `DescribeDisks`. -/
def Event.isDescribeDisks : Event → Bool
  | .DescribeDisks _ _ => true
  | _ => false

/-- Whether an event is a call of `CreateInstance`. -/
def Event.isCreateInstance : Event → Bool
  | .CreateInstance _ _ => true
  | _ => false

/-- Whether an event is a call of `AttachDisk`. -/
def Event.isAttachDisk : Event → Bool
  | .AttachDisk _ _ => true
  | _ => false

/-- Whether an event is a successful call of `AttachDisk`. -/
def Event.isAttachDiskOk : Event → Bool
  | .AttachDisk _ none => true
  | _ => false

/-- The disks found by the successful tagged lookups of a trace, in order. -/
def disksFound : List Event → List DiskItemType
  | [] => []
  | .DescribeDisks _ (.ok result) :: rest => result ++ disksFound rest
  | _ :: rest => disksFound rest

/-- The request of the tagged lookup for one attachment. -/
def lookupArgs (p : Provisioner) (zoneId : String) (attachment : Attachment) :
    DescribeDisksArgs :=
  { RegionId := p.Region, ZoneId := zoneId, Portable := some true,
    Tag := [(VolumeTag, attachment.ID)] }

/-- The events of successful tagged lookups, one per attachment, with their
results. -/
def lookupEvents (p : Provisioner) (zoneId : String) (attachments : List Attachment)
    (lookups : List (List DiskItemType)) : List Event :=
  (attachments.zip lookups).map (fun x =>
    Event.DescribeDisks (lookupArgs p zoneId x.1) (.ok x.2))

/-- The events of successful attachments of the given disks. -/
def attachEvents (instanceID : String) (volumeIDs : List String) : List Event :=
  volumeIDs.map (fun volumeID =>
    Event.AttachDisk { InstanceId := instanceID, DiskId := volumeID } none)

/-- Properties parse and volume resolution succeeds: one successful lookup per
attachment, with as many disks in total as attachments. -/
def Resolved (c : Client σ) (spec : Spec) (raw : String) (request : createInstanceRequest)
    (lookups : List (List DiskItemType)) : Prop :=
  spec.Properties = some raw ∧ c.Unmarshal raw = .ok request ∧
  lookups.length = spec.Attachments.length ∧
  lookups.flatten.length = spec.Attachments.length

/-- The events of a run of `Provision` up to the successful creation of the
instance `i`. -/
def createdEvents (p : Provisioner) (spec : Spec) (request : createInstanceRequest)
    (lookups : List (List DiskItemType)) (token i : String) : List Event :=
  lookupEvents p request.CreateInstanceArgs.ZoneId spec.Attachments lookups ++
    [Event.GenerateClientToken token,
     Event.CreateInstance (buildCreateInstanceArgs p spec (withRegion p request) token) (.ok i)]

/-- The events of a run of `Provision` up to the successful tagging of the
instance; `alloc` holds the allocation of a public address, when it is made. -/
def taggedEvents (p : Provisioner) (spec : Spec) (request : createInstanceRequest)
    (lookups : List (List DiskItemType)) (token i : String) (alloc : List Event)
    (tagArgs : AddTagsArgs) : List Event :=
  createdEvents p spec request lookups token i ++
    [Event.WaitForInstance i InstanceStatus.Stopped timeout none] ++ alloc ++
    [Event.AddTags tagArgs none]

/-- The events of a run of `Provision` up to the successful wait for `Running`. -/
def runningEvents (p : Provisioner) (spec : Spec) (request : createInstanceRequest)
    (lookups : List (List DiskItemType)) (token i : String) (alloc : List Event)
    (tagArgs : AddTagsArgs) (startErr : Option Error) : List Event :=
  taggedEvents p spec request lookups token i alloc tagArgs ++
    attachEvents i (lookups.flatten.map (fun d => d.DiskId)) ++
    [Event.StartInstance i startErr,
     Event.WaitForInstance i InstanceStatus.Running timeout none]

/-- The allocation of a public address is made at most once, for the instance. -/
def AllocShape (i : String) (alloc : List Event) : Prop :=
  alloc = [] ∨ ∃ out, alloc = [Event.AllocatePublicIpAddress i out]

/-- The exits of `Provision`: `ProvisionRun c p spec trace result` lists, for each
return statement of the source, the calls made before it and the result
returned. -/
inductive ProvisionRun (c : Client σ) (p : Provisioner) (spec : Spec) :
    List Event → Option String × Option Error → Prop
  | noProperties : spec.Properties = none →
      ProvisionRun c p spec [] (none, some "Properties must be set")
  | badProperties (raw : String) (err : Error) :
      spec.Properties = some raw → c.Unmarshal raw = .error err →
      ProvisionRun c p spec [] (none, some ("Invalid input formatting: " ++ err))
  | lookupFailed (raw : String) (request : createInstanceRequest) (L : List Event)
      (args : DescribeDisksArgs) (err : Error) :
      spec.Properties = some raw → c.Unmarshal raw = .ok request →
      (∀ ev ∈ L, Event.isDescribeDisks ev = true) →
      ProvisionRun c p spec (L ++ [Event.DescribeDisks args (.error err)])
        (none, some "Failed while looking up volume")
  | mismatch (raw : String) (request : createInstanceRequest)
      (lookups : List (List DiskItemType)) :
      spec.Properties = some raw → c.Unmarshal raw = .ok request →
      lookups.length = spec.Attachments.length →
      lookups.flatten.length ≠ spec.Attachments.length →
      ProvisionRun c p spec
        (lookupEvents p request.CreateInstanceArgs.ZoneId spec.Attachments lookups)
        (none, some ("Not all required volumes found to attach.  Wanted "
          ++ c.FormatAttachments spec.Attachments ++ ", found "
          ++ c.FormatVolumes lookups.flatten))
  | createFailed (raw : String) (request : createInstanceRequest)
      (lookups : List (List DiskItemType)) (token : String) (err : Error) :
      Resolved c spec raw request lookups →
      ProvisionRun c p spec
        (lookupEvents p request.CreateInstanceArgs.ZoneId spec.Attachments lookups ++
          [Event.GenerateClientToken token,
           Event.CreateInstance (buildCreateInstanceArgs p spec (withRegion p request) token)
             (.error err)])
        (none, some err)
  | stoppedWaitFailed (raw : String) (request : createInstanceRequest)
      (lookups : List (List DiskItemType)) (token i : String) (err : Error) :
      Resolved c spec raw request lookups →
      ProvisionRun c p spec
        (createdEvents p spec request lookups token i ++
          [Event.WaitForInstance i InstanceStatus.Stopped timeout (some err)])
        (some i, some err)
  | tagFailed (raw : String) (request : createInstanceRequest)
      (lookups : List (List DiskItemType)) (token i : String) (alloc : List Event)
      (tagArgs : AddTagsArgs) (err : Error) :
      Resolved c spec raw request lookups → AllocShape i alloc →
      ProvisionRun c p spec
        (createdEvents p spec request lookups token i ++
          [Event.WaitForInstance i InstanceStatus.Stopped timeout none] ++ alloc ++
          [Event.AddTags tagArgs (some err)])
        (some i, some err)
  | attachFailed (raw : String) (request : createInstanceRequest)
      (lookups : List (List DiskItemType)) (token i : String) (alloc : List Event)
      (tagArgs : AddTagsArgs) (n : Nat) (err : Error)
      (h : n < (lookups.flatten.map (fun d => d.DiskId)).length) :
      Resolved c spec raw request lookups → AllocShape i alloc →
      ProvisionRun c p spec
        (taggedEvents p spec request lookups token i alloc tagArgs ++
          attachEvents i ((lookups.flatten.map (fun d => d.DiskId)).take n) ++
          [Event.AttachDisk
            { InstanceId := i, DiskId := (lookups.flatten.map (fun d => d.DiskId))[n] }
            (some err)])
        (some i, some err)
  | runningWaitFailed (raw : String) (request : createInstanceRequest)
      (lookups : List (List DiskItemType)) (token i : String) (alloc : List Event)
      (tagArgs : AddTagsArgs) (startErr : Option Error) (err : Error) :
      Resolved c spec raw request lookups → AllocShape i alloc →
      ProvisionRun c p spec
        (taggedEvents p spec request lookups token i alloc tagArgs ++
          attachEvents i (lookups.flatten.map (fun d => d.DiskId)) ++
          [Event.StartInstance i startErr,
           Event.WaitForInstance i InstanceStatus.Running timeout (some err)])
        (some i, some err)
  | started (raw : String) (request : createInstanceRequest)
      (lookups : List (List DiskItemType)) (token i : String) (alloc : List Event)
      (tagArgs : AddTagsArgs) (startErr : Option Error) :
      Resolved c spec raw request lookups → AllocShape i alloc →
      ¬ (spec.Init ≠ "" ∧ request.CreateInstanceArgs.VSwitchId = "") →
      ProvisionRun c p spec
        (runningEvents p spec request lookups token i alloc tagArgs startErr)
        (some i, none)
  | describeFailed (raw : String) (request : createInstanceRequest)
      (lookups : List (List DiskItemType)) (token i : String) (alloc : List Event)
      (tagArgs : AddTagsArgs) (startErr : Option Error) (err : Error) :
      Resolved c spec raw request lookups → AllocShape i alloc →
      spec.Init ≠ "" → request.CreateInstanceArgs.VSwitchId = "" →
      ProvisionRun c p spec
        (runningEvents p spec request lookups token i alloc tagArgs startErr ++
          [Event.DescribeInstanceAttribute i (.error err)])
        (some i, some err)
  | sshFailed (raw : String) (request : createInstanceRequest)
      (lookups : List (List DiskItemType)) (token i : String) (alloc : List Event)
      (tagArgs : AddTagsArgs) (startErr : Option Error) (inst : InstanceAttributesType)
      (err : Error) :
      Resolved c spec raw request lookups → AllocShape i alloc →
      spec.Init ≠ "" → request.CreateInstanceArgs.VSwitchId = "" →
      ProvisionRun c p spec
        (runningEvents p spec request lookups token i alloc tagArgs startErr ++
          [Event.DescribeInstanceAttribute i (.ok inst),
           Event.NewSSHClient "root" (getInstanceIP p inst) 22
             [request.CreateInstanceArgs.Password] (some err)])
        (some i, some err)
  | configured (raw : String) (request : createInstanceRequest)
      (lookups : List (List DiskItemType)) (token i : String) (alloc : List Event)
      (tagArgs : AddTagsArgs) (startErr : Option Error) (inst : InstanceAttributesType)
      (out : Outcome String) :
      Resolved c spec raw request lookups → AllocShape i alloc →
      spec.Init ≠ "" → request.CreateInstanceArgs.VSwitchId = "" →
      ProvisionRun c p spec
        (runningEvents p spec request lookups token i alloc tagArgs startErr ++
          [Event.DescribeInstanceAttribute i (.ok inst),
           Event.NewSSHClient "root" (getInstanceIP p inst) 22
             [request.CreateInstanceArgs.Password] none,
           Event.SSHOutput spec.Init out])
        (some i, out.err)

/-- One recorded call replayed on the adapter: from the adapter state and the SSH
session open so far, the state the adapter leaves after the call of the event, and
the session; `none` when the recorded outcome is not the one the adapter returns on
that state, or when a command is recorded without an open session. -/
def stepEvent (c : Client σ) (st : σ × Option (SSHClient σ)) :
    Event → Option (σ × Option (SSHClient σ))
  | .DescribeDisks args out =>
    if (c.DescribeDisks args st.1).1 = out then some ((c.DescribeDisks args st.1).2, st.2)
    else none
  | .GenerateClientToken token =>
    if (c.GenerateClientToken st.1).1 = token then some ((c.GenerateClientToken st.1).2, st.2)
    else none
  | .CreateInstance args out =>
    if (c.CreateInstance args st.1).1 = out then some ((c.CreateInstance args st.1).2, st.2)
    else none
  | .WaitForInstance instanceID status t err =>
    if (c.WaitForInstance instanceID status t st.1).1 = err then
      some ((c.WaitForInstance instanceID status t st.1).2, st.2)
    else none
  | .AllocatePublicIpAddress instanceID out =>
    if (c.AllocatePublicIpAddress instanceID st.1).1 = out then
      some ((c.AllocatePublicIpAddress instanceID st.1).2, st.2)
    else none
  | .AddTags args err =>
    if (c.AddTags args st.1).1 = err then some ((c.AddTags args st.1).2, st.2) else none
  | .AttachDisk args err =>
    if (c.AttachDisk args st.1).1 = err then some ((c.AttachDisk args st.1).2, st.2) else none
  | .StartInstance instanceID err =>
    if (c.StartInstance instanceID st.1).1 = err then
      some ((c.StartInstance instanceID st.1).2, st.2)
    else none
  | .StopInstance instanceID forceStop err =>
    if (c.StopInstance instanceID forceStop st.1).1 = err then
      some ((c.StopInstance instanceID forceStop st.1).2, st.2)
    else none
  | .DeleteInstance instanceID err =>
    if (c.DeleteInstance instanceID st.1).1 = err then
      some ((c.DeleteInstance instanceID st.1).2, st.2)
    else none
  | .DescribeInstances args out =>
    if (c.DescribeInstances args st.1).1 = out then
      some ((c.DescribeInstances args st.1).2, st.2)
    else none
  | .DescribeInstanceAttribute instanceID out =>
    if (c.DescribeInstanceAttribute instanceID st.1).1 = out then
      some ((c.DescribeInstanceAttribute instanceID st.1).2, st.2)
    else none
  | .NewSSHClient user host port passwords err =>
    match c.NewSSHClient user host port passwords st.1 with
    | (.ok sshClient, s1) => if err = none then some (s1, some sshClient) else none
    | (.error e, s1) => if err = some e then some (s1, st.2) else none
  | .SSHOutput command out =>
    match st.2 with
    | some sshClient =>
      if (sshClient.Output command st.1).1 = out then
        some ((sshClient.Output command st.1).2, some sshClient)
      else none
    | none => none

/-- A trace replayed on the adapter, call by call from the oldest: the adapter state
and the SSH session after the last call, `none` when some recorded outcome is not
the one the adapter returns. -/
def replay (c : Client σ) : List Event → σ × Option (SSHClient σ) →
    Option (σ × Option (SSHClient σ))
  | [], st => some st
  | ev :: rest, st => (stepEvent c st ev).bind (replay c rest)

/-- The trace of a world is faithful to the adapter: replayed from the initial
state it gives the state of the world, with the given SSH session open. -/
def Faithful (c : Client σ) (s0 : σ) (w : World σ) (ssh : Option (SSHClient σ)) : Prop :=
  replay c w.trace (s0, none) = some (w.state, ssh)

/-! ## A test double -/

/-- An SSH session whose commands succeed. -/
def okSSHClient : SSHClient Unit where
  Output := fun _ s => (.ok "done", s)

/-- An adapter without state on which every call succeeds: properties parse to the
empty request, every tagged lookup finds one disk named after the volume
identifier, the created instance is `i-1`, an instance has one inner address and
one tag, and listings have a single empty page. -/
def okClient : Client Unit where
  Unmarshal := fun _ => .ok {}
  FormatAttachments := fun _ => "attachments"
  FormatVolumes := fun _ => "volumes"
  NextPage := fun _ => none
  DescribeDisks := fun args s =>
    (.ok [{ DiskId := "d-" ++ (TagMap.get? args.Tag VolumeTag).getD "" }], s)
  GenerateClientToken := fun s => ("token", s)
  CreateInstance := fun _ s => (.ok "i-1", s)
  WaitForInstance := fun _ _ _ s => (none, s)
  AllocatePublicIpAddress := fun _ s => (.ok "1.2.3.4", s)
  AddTags := fun _ s => (none, s)
  AttachDisk := fun _ s => (none, s)
  StartInstance := fun _ s => (none, s)
  StopInstance := fun _ _ s => (none, s)
  DeleteInstance := fun _ s => (none, s)
  DescribeInstances := fun _ s => (.ok ([], none), s)
  DescribeInstanceAttribute := fun id s =>
    (.ok { InstanceId := id, RegionId := "cn-hangzhou", InnerIpAddress := { IpAddress := ["10.0.0.1"] },
           Tags := { Tag := [{ TagKey := "a", TagValue := "1" }] } }, s)
  NewSSHClient := fun _ _ _ _ s => (.ok okSSHClient, s)

/-- The adapter `okClient` with a listing of two pages of one instance each, and a
next-page rule of its own, on the integers without overflow: there is a next page
while `PageNumber * PageSize < TotalCount`. -/
def pagedClient : Client Unit :=
  { okClient with
    NextPage := fun r =>
      if r.PageNumber * r.PageSize ≥ r.TotalCount then none
      else some { PageNumber := r.PageNumber + 1, PageSize := r.PageSize }
    DescribeInstances := fun args s =>
      if args.Pagination.PageNumber = 0 then
        (.ok ([{ InstanceId := "i-1", InnerIpAddress := { IpAddress := ["10.0.0.1"] } }],
          some { TotalCount := 2, PageNumber := 1, PageSize := 1 }), s)
      else
        (.ok ([{ InstanceId := "i-2", InnerIpAddress := { IpAddress := ["10.0.0.2"] } }],
          some { TotalCount := 2, PageNumber := 2, PageSize := 1 }), s) }

/-- The adapter `okClient` on which the tag application fails. -/
def tagFailsClient : Client Unit :=
  { okClient with AddTags := fun _ s => (some "tag failed", s) }

/-- The adapter `okClient` on which `StartInstance` fails. -/
def startFailsClient : Client Unit :=
  { okClient with StartInstance := fun _ s => (some "start failed", s) }

/-- The adapter `okClient` on which describing one instance fails. -/
def describeFailsClient : Client Unit :=
  { okClient with DescribeInstanceAttribute := fun _ s => (.error "describe failed", s) }

/-- The adapter `okClient` where two disks carry the volume identifier `vol-a` and
no disk carries any other identifier. -/
def sharedTagClient : Client Unit :=
  { okClient with
    DescribeDisks := fun args s =>
      if TagMap.get? args.Tag VolumeTag = some "vol-a" then
        (.ok [{ DiskId := "d-1" }, { DiskId := "d-2" }], s)
      else (.ok [], s) }

/-! ## Tag maps: lemmas -/

namespace TagMap

theorem get?_set (m : TagMap) (k v k' : String) :
    get? (set m k v) k' = if k = k' then some v else get? m k' := by
  induction m with
  | nil => simp [set, get?]
  | cons p rest ih =>
    obtain ⟨a, b⟩ := p
    by_cases h : a = k
    · subst h
      by_cases h' : a = k' <;> simp [set, get?, h']
    · by_cases h' : a = k'
      · subst h'
        have hk : ¬ k = a := fun e => h e.symm
        simp [set, get?, h, hk]
      · simp [set, get?, h, h', ih]

theorem mem_keys_iff (m : TagMap) (k : String) : k ∈ keys m ↔ (get? m k).isSome = true := by
  induction m with
  | nil => simp [keys, get?]
  | cons p rest ih =>
    obtain ⟨a, b⟩ := p
    by_cases h : a = k
    · simp [keys, get?, h]
    · have hk : ¬ k = a := fun e => h e.symm
      simp only [keys, List.map_cons, List.mem_cons, get?, h, if_false, hk, false_or]
      simpa [keys] using ih

theorem not_mem_keys_iff (m : TagMap) (k : String) : k ∉ keys m ↔ get? m k = none := by
  rw [mem_keys_iff]
  cases get? m k <;> simp

theorem mem_keys_set (m : TagMap) (k v k' : String) :
    k' ∈ keys (set m k v) ↔ k' = k ∨ k' ∈ keys m := by
  rw [mem_keys_iff, mem_keys_iff, get?_set]
  by_cases h : k = k'
  · simp [h]
  · have hk : ¬ k' = k := fun e => h e.symm
    simp [h, hk]

theorem WF_set (m : TagMap) (k v : String) (h : WF m) : WF (set m k v) := by
  induction m with
  | nil => simp [set, WF, keys]
  | cons p rest ih =>
    obtain ⟨a, b⟩ := p
    have hcons : a ∉ keys rest ∧ WF rest := by simpa [WF, keys] using h
    by_cases ha : a = k
    · subst ha
      simpa [set, WF, keys] using h
    · have hmem : a ∉ keys (set rest k v) := by
        rw [mem_keys_set]
        rintro (e | e)
        · exact ha e
        · exact hcons.1 e
      have hwf := ih hcons.2
      simp only [set, ha, if_false, WF, keys, List.map_cons, List.nodup_cons]
      exact ⟨by simpa [keys] using hmem, by simpa [WF, keys] using hwf⟩

end TagMap

/-! ## mergeTags -/

/-- The inner loop of `mergeTags` over the entries of one map. -/
theorem mergeTags_inner_keys (l : List (String × String)) (acc : List String × TagMap)
    (hnd : acc.1.Nodup) (hk : ∀ k, k ∈ acc.1 ↔ k ∈ TagMap.keys acc.2) (hwf : TagMap.WF acc.2) :
    (l.foldl mergeTagsStep acc).1.Nodup ∧
    (∀ k, k ∈ (l.foldl mergeTagsStep acc).1 ↔ k ∈ TagMap.keys (l.foldl mergeTagsStep acc).2) ∧
    TagMap.WF (l.foldl mergeTagsStep acc).2 ∧
    (∀ k, k ∈ TagMap.keys (l.foldl mergeTagsStep acc).2 ↔
      k ∈ TagMap.keys acc.2 ∨ k ∈ TagMap.keys l) := by
  induction l generalizing acc with
  | nil => simp [hnd, hk, hwf, TagMap.keys]
  | cons kv rest ih =>
    obtain ⟨a, b⟩ := kv
    obtain ⟨ks, tags⟩ := acc
    simp only at hnd hk hwf
    have hstep1 : (mergeTagsStep (ks, tags) (a, b)).2 = TagMap.set tags a b := by
      unfold mergeTagsStep; split <;> rfl
    have hnd' : (mergeTagsStep (ks, tags) (a, b)).1.Nodup := by
      unfold mergeTagsStep
      split
      · exact hnd
      · rename_i hnone
        have : a ∉ ks := by
          rw [hk, TagMap.mem_keys_iff]; exact hnone
        simp only
        rw [List.nodup_append]
        refine ⟨hnd, List.nodup_singleton a, ?_⟩
        intro x hx hx'
        simp only [List.mem_singleton] at hx'
        subst hx'
        exact this hx
    have hk' : ∀ k, k ∈ (mergeTagsStep (ks, tags) (a, b)).1 ↔
        k ∈ TagMap.keys (mergeTagsStep (ks, tags) (a, b)).2 := by
      intro k
      rw [hstep1, TagMap.mem_keys_set]
      unfold mergeTagsStep
      split
      · rename_i hsome
        have ha : a ∈ ks := by rw [hk, TagMap.mem_keys_iff]; exact hsome
        simp only [hk]
        constructor
        · intro h; exact Or.inr h
        · rintro (h | h)
          · subst h; exact (hk k).1 ha
          · exact h
      · simp only [List.mem_append, List.mem_singleton, hk]
        tauto
    have hwf' : TagMap.WF (mergeTagsStep (ks, tags) (a, b)).2 := by
      rw [hstep1]; exact TagMap.WF_set _ _ _ hwf
    obtain ⟨h1, h2, h3, h4⟩ := ih (mergeTagsStep (ks, tags) (a, b)) hnd' hk' hwf'
    refine ⟨h1, h2, h3, ?_⟩
    intro k
    simp only [List.foldl_cons]
    rw [h4 k, hstep1, TagMap.mem_keys_set]
    simp only [TagMap.keys, List.map_cons, List.mem_cons]
    tauto

/-- A key that the entries do not mention keeps its value through the inner loop. -/
theorem mergeTags_inner_get?_of_not_mem (l : List (String × String)) (acc : List String × TagMap)
    (k : String) (h : k ∉ TagMap.keys l) :
    TagMap.get? (l.foldl mergeTagsStep acc).2 k = TagMap.get? acc.2 k := by
  induction l generalizing acc with
  | nil => rfl
  | cons kv rest ih =>
    obtain ⟨a, b⟩ := kv
    have hstep1 : (mergeTagsStep acc (a, b)).2 = TagMap.set acc.2 a b := by
      unfold mergeTagsStep; split <;> rfl
    have hne : ¬ a = k ∧ k ∉ TagMap.keys rest := by
      simp only [TagMap.keys, List.map_cons, List.mem_cons, not_or] at h
      exact ⟨fun e => h.1 e.symm, by simpa [TagMap.keys] using h.2⟩
    simp only [List.foldl_cons]
    rw [ih _ hne.2, hstep1, TagMap.get?_set]
    simp [hne.1]

/-- After the inner loop over a well-formed map, its keys carry its values. -/
theorem mergeTags_inner_get? (l : List (String × String)) (acc : List String × TagMap)
    (hl : TagMap.WF l) (k v : String) (h : TagMap.get? l k = some v) :
    TagMap.get? (l.foldl mergeTagsStep acc).2 k = some v := by
  induction l generalizing acc with
  | nil => simp [TagMap.get?] at h
  | cons kv rest ih =>
    obtain ⟨a, b⟩ := kv
    have hstep1 : (mergeTagsStep acc (a, b)).2 = TagMap.set acc.2 a b := by
      unfold mergeTagsStep; split <;> rfl
    have hcons : a ∉ TagMap.keys rest ∧ TagMap.WF rest := by
      simpa [TagMap.WF, TagMap.keys] using hl
    simp only [List.foldl_cons]
    by_cases hak : a = k
    · subst hak
      simp only [TagMap.get?, if_true, Option.some.injEq] at h
      subst h
      rw [mergeTags_inner_get?_of_not_mem _ _ _ hcons.1, hstep1, TagMap.get?_set]
      simp
    · simp only [TagMap.get?, hak, if_false] at h
      exact ih _ hcons.2 h

/-- The outer loop of `mergeTags`, from any accumulator that satisfies the invariant. -/
theorem mergeTags_outer_keys (tagMaps : List TagMap) (acc : List String × TagMap)
    (hnd : acc.1.Nodup) (hk : ∀ k, k ∈ acc.1 ↔ k ∈ TagMap.keys acc.2) (hwf : TagMap.WF acc.2) :
    (tagMaps.foldl (fun acc tagMap => tagMap.foldl mergeTagsStep acc) acc).1.Nodup ∧
    (∀ k, k ∈ (tagMaps.foldl (fun acc tagMap => tagMap.foldl mergeTagsStep acc) acc).1 ↔
      k ∈ TagMap.keys (tagMaps.foldl (fun acc tagMap => tagMap.foldl mergeTagsStep acc) acc).2) ∧
    TagMap.WF (tagMaps.foldl (fun acc tagMap => tagMap.foldl mergeTagsStep acc) acc).2 ∧
    (∀ k, k ∈ TagMap.keys (tagMaps.foldl (fun acc tagMap => tagMap.foldl mergeTagsStep acc) acc).2 ↔
      k ∈ TagMap.keys acc.2 ∨ ∃ m ∈ tagMaps, k ∈ TagMap.keys m) := by
  induction tagMaps generalizing acc with
  | nil => simp [hnd, hk, hwf]
  | cons m rest ih =>
    obtain ⟨h1, h2, h3, h4⟩ := mergeTags_inner_keys m acc hnd hk hwf
    obtain ⟨g1, g2, g3, g4⟩ := ih (m.foldl mergeTagsStep acc) h1 h2 h3
    refine ⟨g1, g2, g3, ?_⟩
    intro k
    simp only [List.foldl_cons]
    rw [g4 k, h4 k]
    simp only [List.mem_cons, exists_eq_or_imp]
    tauto

/-- A key that no map mentions keeps its value through the outer loop. -/
theorem mergeTags_outer_get?_of_not_mem (tagMaps : List TagMap) (acc : List String × TagMap)
    (k : String) (h : ∀ m ∈ tagMaps, k ∉ TagMap.keys m) :
    TagMap.get? (tagMaps.foldl (fun acc tagMap => tagMap.foldl mergeTagsStep acc) acc).2 k
      = TagMap.get? acc.2 k := by
  induction tagMaps generalizing acc with
  | nil => rfl
  | cons m rest ih =>
    simp only [List.foldl_cons]
    rw [ih _ (fun m' hm' => h m' (List.mem_cons_of_mem _ hm')),
      mergeTags_inner_get?_of_not_mem _ _ _ (h m (List.mem_cons_self _ _))]

/-- Strings sorted by `sortStrings` are ascending; without repetition, strictly so. -/
theorem sortStrings_sorted (keys : List String) (hnd : keys.Nodup) :
    List.Sorted (· < ·) (sortStrings keys) ∧ (sortStrings keys).Perm keys := by
  have hperm : (sortStrings keys).Perm keys := List.perm_insertionSort _ keys
  haveI : IsTotal String (fun a b => a.toList ≤ b.toList) :=
    ⟨fun a b => le_total a.toList b.toList⟩
  haveI : IsTrans String (fun a b => a.toList ≤ b.toList) :=
    ⟨fun a b c hab hbc => le_trans hab hbc⟩
  have hs : List.Pairwise (fun a b : String => a.toList ≤ b.toList) (sortStrings keys) :=
    List.sorted_insertionSort _ keys
  have hn : List.Pairwise (fun a b : String => a ≠ b) (sortStrings keys) :=
    (hperm.nodup_iff).2 hnd
  refine ⟨?_, hperm⟩
  exact (hs.and hn).imp (fun h => lt_of_le_of_ne (String.le_iff_toList_le.2 h.1) h.2)

/-- Correctness of `mergeTags` on well-formed maps: union of the keys, last writer
wins, keys sorted strictly ascending. -/
theorem mergeTags_correct (tagMaps : List TagMap) (hwf : ∀ m ∈ tagMaps, TagMap.WF m) :
    TagMap.WF (mergeTags tagMaps).2 ∧
    (∀ k, k ∈ TagMap.keys (mergeTags tagMaps).2 ↔ ∃ m ∈ tagMaps, k ∈ TagMap.keys m) ∧
    (∀ pre m post k v, tagMaps = pre ++ m :: post → TagMap.get? m k = some v →
      (∀ m' ∈ post, k ∉ TagMap.keys m') → TagMap.get? (mergeTags tagMaps).2 k = some v) ∧
    (∀ k, k ∈ (mergeTags tagMaps).1 ↔ k ∈ TagMap.keys (mergeTags tagMaps).2) ∧
    (mergeTags tagMaps).1.Nodup ∧
    List.Sorted (· < ·) (mergeTags tagMaps).1 := by
  have hinv := mergeTags_outer_keys tagMaps ([], []) List.nodup_nil
    (by simp [TagMap.keys]) (by simp [TagMap.WF, TagMap.keys])
  obtain ⟨h1, h2, h3, h4⟩ := hinv
  have hsort := sortStrings_sorted _ h1
  refine ⟨h3, ?_, ?_, ?_, ?_, hsort.1⟩
  · intro k
    have := h4 k
    simpa [mergeTags, TagMap.keys] using this
  · intro pre m post k v hsplit hget hpost
    subst hsplit
    simp only [mergeTags, List.foldl_append, List.foldl_cons]
    rw [mergeTags_outer_get?_of_not_mem post _ k hpost]
    exact mergeTags_inner_get? m _ (hwf m (by simp)) k v hget
  · intro k
    simp only [mergeTags]
    rw [hsort.2.mem_iff]
    exact h2 k
  · exact (hsort.2.nodup_iff).2 h1

/-- C4. For every sequence of tag maps (Go maps: no key twice in one map), `mergeTags`
returns `(keys, merged)` where `merged` is a map whose keys are exactly the keys
occurring in at least one input map, `merged[k]` is the value of `k` in the last input
map that contains `k`, and `keys` lists exactly the keys of `merged`, each once, in
strictly ascending order. -/
theorem mergeTags_spec (tagMaps : List TagMap) (hwf : ∀ m ∈ tagMaps, TagMap.WF m) :
    TagMap.WF (mergeTags tagMaps).2 ∧
    (∀ k, k ∈ TagMap.keys (mergeTags tagMaps).2 ↔ ∃ m ∈ tagMaps, k ∈ TagMap.keys m) ∧
    (∀ pre m post k v, tagMaps = pre ++ m :: post → TagMap.get? m k = some v →
      (∀ m' ∈ post, k ∉ TagMap.keys m') → TagMap.get? (mergeTags tagMaps).2 k = some v) ∧
    (∀ k, k ∈ (mergeTags tagMaps).1 ↔ k ∈ TagMap.keys (mergeTags tagMaps).2) ∧
    (mergeTags tagMaps).1.Nodup ∧
    List.Sorted (· < ·) (mergeTags tagMaps).1 :=
  mergeTags_correct tagMaps hwf

/-- The merge of two maps that share the key `b`, evaluated. -/
theorem mergeTags_example :
    mergeTags [[("b", "1"), ("a", "2")], [("c", "3"), ("b", "4")]]
      = (["a", "b", "c"], [("b", "4"), ("a", "2"), ("c", "3")]) := by
  decide

/-- Witness of C4 on two maps that share the key `b`. -/
theorem mergeTags_spec_witness :
    (∀ m ∈ [[("b", "1"), ("a", "2")], [("c", "3"), ("b", "4")]], TagMap.WF m) ∧
    List.Sorted (· < ·) (mergeTags [[("b", "1"), ("a", "2")], [("c", "3"), ("b", "4")]]).1 ∧
    TagMap.get? (mergeTags [[("b", "1"), ("a", "2")], [("c", "3"), ("b", "4")]]).2 "b"
      = some "4" :=
  ⟨by decide,
   (mergeTags_spec [[("b", "1"), ("a", "2")], [("c", "3"), ("b", "4")]] (by decide)).2.2.2.2.2,
   (mergeTags_spec [[("b", "1"), ("a", "2")], [("c", "3"), ("b", "4")]] (by decide)).2.2.1
     [[("b", "1"), ("a", "2")]] [("c", "3"), ("b", "4")] [] "b" "4" rfl (by decide) (by simp)⟩

/-! ## getInstanceIP -/

/-- A string of length zero is the empty string. -/
theorem string_length_pos_iff (s : String) : 0 < s.length ↔ s ≠ "" := by
  obtain ⟨l⟩ := s
  cases l with
  | nil => simp [String.length]
  | cons a rest =>
    simp only [String.length, List.length_cons, Nat.zero_lt_succ, true_iff]
    intro h
    have := congrArg String.data h
    simp at this

/-- C5. In private-IP-only mode `getInstanceIP` returns the first inner private
address if there is one, else the first VPC-private address if there is one, else
the empty string, whatever the public and elastic addresses are; in public mode it
returns the first public address if there is one, else the elastic IP if it is
non-empty, else the empty string, whatever the inner and VPC-private addresses
are. -/
theorem getInstanceIP_spec (region : String) (inst : InstanceAttributesType) :
    (getInstanceIP { Region := region, PrivateIPOnly := true } inst =
      match inst.InnerIpAddress.IpAddress, inst.VpcAttributes.PrivateIpAddress.IpAddress with
      | a :: _, _ => a
      | [], a :: _ => a
      | [], [] => "") ∧
    (getInstanceIP { Region := region, PrivateIPOnly := false } inst =
      match inst.PublicIpAddress.IpAddress with
      | a :: _ => a
      | [] => if inst.EipAddress.IpAddress ≠ "" then inst.EipAddress.IpAddress else "") ∧
    (∀ (pub : IpAddressSetType) (eip : EipAddressAssociateType),
      getInstanceIP { Region := region, PrivateIPOnly := true }
          { inst with PublicIpAddress := pub, EipAddress := eip } =
        getInstanceIP { Region := region, PrivateIPOnly := true } inst) ∧
    (∀ (inner : IpAddressSetType) (vpc : VpcAttributesType),
      getInstanceIP { Region := region, PrivateIPOnly := false }
          { inst with InnerIpAddress := inner, VpcAttributes := vpc } =
        getInstanceIP { Region := region, PrivateIPOnly := false } inst) := by
  refine ⟨?_, ?_, ?_, ?_⟩
  · simp only [getInstanceIP, if_true]
    cases h1 : inst.InnerIpAddress.IpAddress with
    | cons a rest => simp
    | nil =>
      cases h2 : inst.VpcAttributes.PrivateIpAddress.IpAddress with
      | cons a rest => simp
      | nil => simp
  · simp only [getInstanceIP, Bool.false_eq_true, if_false]
    cases h1 : inst.PublicIpAddress.IpAddress with
    | cons a rest => simp
    | nil =>
      simp only [List.length_nil, lt_self_iff_false, dite_false, string_length_pos_iff]
  · intro pub eip
    simp [getInstanceIP]
  · intro inner vpc
    simp [getInstanceIP]

/-! ## Destroy -/

/-- C3. For every instance id, adapter and adapter state, `Destroy` calls delete
exactly once.  When the adapter's stop fails, `Destroy` calls stop and then delete
on the state the stop left; when the stop succeeds, it calls stop, the wait for
`Stopped` and then delete on the state the wait left, whatever the wait returned.
The outcomes recorded are those the adapter returns, and the final state is the
one the delete leaves.  The result is the wrapped error of the adapter's delete if
it fails; otherwise the stop error if stop failed; otherwise nil, also when the
wait failed. -/
theorem Destroy_spec (c : Client σ) (id : String) (s : σ) :
    ((Destroy c id ⟨s, []⟩).2.trace.filter Event.isDeleteInstance).length = 1 ∧
    match c.StopInstance id false s with
    | (some stopErr, s1) =>
      (Destroy c id ⟨s, []⟩).2.trace =
        [Event.StopInstance id false (some stopErr),
         Event.DeleteInstance id (c.DeleteInstance id s1).1] ∧
      (Destroy c id ⟨s, []⟩).2.state = (c.DeleteInstance id s1).2 ∧
      (Destroy c id ⟨s, []⟩).1 =
        match (c.DeleteInstance id s1).1 with
        | some e => some ("Failed to delete instance " ++ id ++ ": " ++ e)
        | none => some stopErr
    | (none, s1) =>
      (Destroy c id ⟨s, []⟩).2.trace =
        [Event.StopInstance id false none,
         Event.WaitForInstance id InstanceStatus.Stopped 300
           (c.WaitForInstance id InstanceStatus.Stopped 300 s1).1,
         Event.DeleteInstance id
           (c.DeleteInstance id (c.WaitForInstance id InstanceStatus.Stopped 300 s1).2).1] ∧
      (Destroy c id ⟨s, []⟩).2.state =
        (c.DeleteInstance id (c.WaitForInstance id InstanceStatus.Stopped 300 s1).2).2 ∧
      (Destroy c id ⟨s, []⟩).1 =
        match (c.DeleteInstance id (c.WaitForInstance id InstanceStatus.Stopped 300 s1).2).1 with
        | some e => some ("Failed to delete instance " ++ id ++ ": " ++ e)
        | none => none := by
  rcases hstop : c.StopInstance id false s with ⟨stopErr, s1⟩
  cases stopErr with
  | some e =>
    rcases hdel : c.DeleteInstance id s1 with ⟨delErr, s2⟩
    refine ⟨?_, ?_, ?_, ?_⟩ <;> cases delErr <;>
      simp [Destroy, callStopInstance, callDeleteInstance, hstop, hdel, Event.isDeleteInstance]
  | none =>
    rcases hwait : c.WaitForInstance id InstanceStatus.Stopped 300 s1 with ⟨waitErr, s2⟩
    rcases hdel : c.DeleteInstance id s2 with ⟨delErr, s3⟩
    refine ⟨?_, ?_, ?_, ?_⟩ <;> cases delErr <;>
      simp [Destroy, callStopInstance, callDeleteInstance, callWaitForInstance, hstop, hwait,
        hdel, Event.isDeleteInstance, timeout]

/-- The run of `Destroy` on an adapter whose stop and delete both fail: delete is
called after the failed stop and its wrapped error is returned. -/
theorem Destroy_example :
    (Destroy { okClient with
        StopInstance := fun _ _ s => (some "stop failed", s)
        DeleteInstance := fun _ s => (some "delete failed", s) } "i-1" ⟨(), []⟩).1
      = some "Failed to delete instance i-1: delete failed" ∧
    (Destroy { okClient with
        StopInstance := fun _ _ s => (some "stop failed", s)
        DeleteInstance := fun _ s => (some "delete failed", s) } "i-1" ⟨(), []⟩).2.trace
      = [Event.StopInstance "i-1" false (some "stop failed"),
         Event.DeleteInstance "i-1" (some "delete failed")] := by
  decide

/-! ## Label -/

/-- Writing tag items into a map: the last item of a key gives its value. -/
theorem foldl_set_get? (items : List TagItemType) (acc : TagMap) (k : String) :
    TagMap.get? (items.foldl (fun m t => TagMap.set m t.TagKey t.TagValue) acc) k =
      match currentTagValue items k with
      | some v => some v
      | none => TagMap.get? acc k := by
  induction items generalizing acc with
  | nil => simp [currentTagValue]
  | cons t rest ih =>
    simp only [List.foldl_cons]
    rw [ih]
    simp only [currentTagValue, List.reverse_cons, List.find?_append]
    cases hfind : List.find? (fun t => decide (t.TagKey = k)) rest.reverse with
    | some u => simp
    | none =>
      by_cases htk : t.TagKey = k
      · simp [TagMap.get?_set, htk]
      · simp [TagMap.get?_set, htk]

/-- Writing tag items into a map keeps it well formed. -/
theorem foldl_set_WF (items : List TagItemType) (acc : TagMap) (h : TagMap.WF acc) :
    TagMap.WF (items.foldl (fun m t => TagMap.set m t.TagKey t.TagValue) acc) := by
  induction items generalizing acc with
  | nil => exact h
  | cons t rest ih => exact ih _ (TagMap.WF_set _ _ _ h)

/-- The flat tag map is a map and gives each key the value of its last item. -/
theorem flattenTags_correct (items : List TagItemType) :
    TagMap.WF (flattenTags items) ∧
    ∀ k, TagMap.get? (flattenTags items) k = currentTagValue items k := by
  refine ⟨foldl_set_WF items [] (by simp [TagMap.WF, TagMap.keys]), ?_⟩
  intro k
  unfold flattenTags
  rw [foldl_set_get?]
  cases currentTagValue items k <;> simp [TagMap.get?]

/-- The keys given a value by a list of tag items are the keys of its items. -/
theorem currentTagValue_isSome (items : List TagItemType) (k : String) :
    (currentTagValue items k).isSome = true ↔ ∃ t ∈ items, t.TagKey = k := by
  simp [currentTagValue, List.find?_isSome]

/-- Merging the current tags with the labels: the labels win, the other keys keep
their value. -/
theorem mergeTags_pair (allTags labels : TagMap) (ha : TagMap.WF allTags)
    (hl : TagMap.WF labels) :
    TagMap.WF (mergeTags [allTags, labels]).2 ∧
    (∀ k, k ∈ TagMap.keys (mergeTags [allTags, labels]).2 ↔
      k ∈ TagMap.keys allTags ∨ k ∈ TagMap.keys labels) ∧
    (∀ k v, TagMap.get? labels k = some v →
      TagMap.get? (mergeTags [allTags, labels]).2 k = some v) ∧
    (∀ k, k ∉ TagMap.keys labels →
      TagMap.get? (mergeTags [allTags, labels]).2 k = TagMap.get? allTags k) := by
  have hwf : ∀ m ∈ [allTags, labels], TagMap.WF m := by
    intro m hm
    simp only [List.mem_cons, List.mem_singleton, List.not_mem_nil, or_false] at hm
    rcases hm with rfl | rfl
    · exact ha
    · exact hl
  obtain ⟨h1, h2, h3, -, -, -⟩ := mergeTags_correct [allTags, labels] hwf
  refine ⟨h1, ?_, ?_, ?_⟩
  · intro k
    rw [h2 k]
    simp
  · intro k v hget
    exact h3 [allTags] labels [] k v rfl hget (by simp)
  · intro k hk
    cases hget : TagMap.get? allTags k with
    | some v =>
      exact h3 [] allTags [labels] k v rfl hget (by simpa using hk)
    | none =>
      rw [← TagMap.not_mem_keys_iff, h2 k]
      have hka : k ∉ TagMap.keys allTags := (TagMap.not_mem_keys_iff _ _).2 hget
      simp [hka, hk]

/-- C9. For every instance id and label map (a Go map): when the adapter's describe
fails, `Label` returns the describe error, the describe call is its only call and
the state is the one the describe left.  When it succeeds, `Label` issues after it
exactly one tag-apply call, on the state the describe left; the outcome recorded
and returned is the one the adapter's `AddTags` gives for these arguments on that
state, and the final state is the one it leaves.  The tag map of that call has
exactly the keys of the current tag items together with the keys of the labels,
maps every label key to its label value and every other key to the value the
current tag items give it. -/
theorem Label_spec (c : Client σ) (id : String) (labels : TagMap) (s : σ)
    (hl : TagMap.WF labels) :
    match c.DescribeInstanceAttribute id s with
    | (.error e, s1) =>
      (Label c id labels ⟨s, []⟩).1 = some e ∧
      (Label c id labels ⟨s, []⟩).2.trace = [Event.DescribeInstanceAttribute id (.error e)] ∧
      ((Label c id labels ⟨s, []⟩).2.trace.filter Event.isAddTags).length = 0 ∧
      (Label c id labels ⟨s, []⟩).2.state = s1
    | (.ok output, s1) =>
      ∃ args,
        (Label c id labels ⟨s, []⟩).2.trace =
          [Event.DescribeInstanceAttribute id (.ok output),
           Event.AddTags args (c.AddTags args s1).1] ∧
        ((Label c id labels ⟨s, []⟩).2.trace.filter Event.isAddTags).length = 1 ∧
        (Label c id labels ⟨s, []⟩).1 = (c.AddTags args s1).1 ∧
        (Label c id labels ⟨s, []⟩).2.state = (c.AddTags args s1).2 ∧
        args.ResourceId = id ∧
        args.ResourceType = TagResourceType.TagResourceInstance ∧
        args.RegionId = output.RegionId ∧
        TagMap.WF args.Tag ∧
        (∀ k, k ∈ TagMap.keys args.Tag ↔
          (∃ t ∈ output.Tags.Tag, t.TagKey = k) ∨ k ∈ TagMap.keys labels) ∧
        (∀ k v, TagMap.get? labels k = some v → TagMap.get? args.Tag k = some v) ∧
        (∀ k, k ∉ TagMap.keys labels →
          TagMap.get? args.Tag k = currentTagValue output.Tags.Tag k) := by
  rcases hd : c.DescribeInstanceAttribute id s with ⟨out, s1⟩
  cases out with
  | error e =>
    simp [Label, describeInstance, callDescribeInstanceAttribute, hd, Event.isAddTags]
  | ok output =>
    obtain ⟨hfw, hfg⟩ := flattenTags_correct output.Tags.Tag
    obtain ⟨m1, m2, m3, m4⟩ := mergeTags_pair (flattenTags output.Tags.Tag) labels hfw hl
    refine ⟨⟨output.RegionId, id, TagResourceType.TagResourceInstance,
              (mergeTags [flattenTags output.Tags.Tag, labels]).2⟩,
            ?_, ?_, ?_, ?_, rfl, rfl, rfl, m1, ?_, m3, ?_⟩
    · simp [Label, describeInstance, callDescribeInstanceAttribute, hd, callAddTags]
    · simp [Label, describeInstance, callDescribeInstanceAttribute, hd, callAddTags,
        Event.isAddTags]
    · simp [Label, describeInstance, callDescribeInstanceAttribute, hd, callAddTags]
    · simp [Label, describeInstance, callDescribeInstanceAttribute, hd, callAddTags]
    · intro k
      rw [m2 k, TagMap.mem_keys_iff (flattenTags output.Tags.Tag), hfg k,
        currentTagValue_isSome]
    · intro k hk
      rw [m4 k hk, hfg k]

/-- Witness of C9: labelling the instance of an adapter whose current tag is `a` and
whose tag-apply fails, with the label `b`: the error of the adapter's tag-apply is
returned. -/
theorem Label_spec_witness :
    TagMap.WF [("b", "2")] ∧
    ∃ args,
      (Label tagFailsClient "i-1" [("b", "2")] ⟨(), []⟩).2.trace =
        [Event.DescribeInstanceAttribute "i-1"
          (.ok { InstanceId := "i-1", RegionId := "cn-hangzhou",
                 InnerIpAddress := { IpAddress := ["10.0.0.1"] },
                 Tags := { Tag := [{ TagKey := "a", TagValue := "1" }] } }),
         Event.AddTags args (some "tag failed")] ∧
      (Label tagFailsClient "i-1" [("b", "2")] ⟨(), []⟩).1 = some "tag failed" ∧
      TagMap.get? args.Tag "a" = some "1" ∧ TagMap.get? args.Tag "b" = some "2" :=
  ⟨by decide,
   (Label_spec tagFailsClient "i-1" [("b", "2")] () (by decide)).imp
     (fun _ h => ⟨h.1, h.2.2.1,
       (h.2.2.2.2.2.2.2.2.2.2 "a" (by decide)).trans (by decide),
       h.2.2.2.2.2.2.2.2.2.1 "b" "2" (by decide)⟩)⟩

/-! ## DescribeInstances -/

/-- The loop over one page appends one description per instance, in order. -/
theorem describePage_eq_map (p : Provisioner) (instances : List InstanceAttributesType) :
    describePage p instances = instances.map (describeItem p) := by
  have key : ∀ (l : List InstanceAttributesType) (acc : List Description),
      l.foldl (fun descriptions item =>
        descriptions ++ [{ ID := item.InstanceId, LogicalID := some (getInstanceIP p item),
                           Tags := flattenTags item.Tags.Tag }]) acc
        = acc ++ l.map (describeItem p) := by
    intro l
    induction l with
    | nil => intro acc; simp
    | cons item rest ih =>
      intro acc
      simp only [List.foldl_cons, List.map_cons]
      rw [ih]
      simp [describeItem]
  simpa [describePage] using key instances []

/-- Along a chain of pages, with fuel for every page, `describeInstances` returns
the descriptions of all pages in order. -/
theorem describeInstances_chain (c : Client σ) (p : Provisioner) (tags : TagMap)
    (pagination : Option Pagination) (s : σ) (pages : List (List InstanceAttributesType))
    (h : PageChain c p tags pagination s pages) :
    ∀ (trace : List Event) (fuel : Nat), pages.length ≤ fuel →
      (describeInstances c p tags fuel pagination ⟨s, trace⟩).1 =
        some (.ok ((pages.map (fun page => page.map (describeItem p))).flatten)) := by
  induction h with
  | last pagination s s1 page paginationResult hcall hnext =>
    intro trace fuel hf
    cases fuel with
    | zero => simp at hf
    | succ n =>
      cases paginationResult with
      | none =>
        simp [describeInstances, callDescribeInstances, hcall, describePage_eq_map]
      | some r =>
        have hr : c.NextPage r = none := by simpa using hnext
        simp [describeInstances, callDescribeInstances, hcall, describePage_eq_map, hr]
  | next pagination s s1 page r pg pages hcall hnext _ ih =>
    intro trace fuel hf
    cases fuel with
    | zero => simp at hf
    | succ n =>
      have hn : pages.length ≤ n := by simpa using hf
      have hrec := ih (trace ++ [Event.DescribeInstances (describeGroupRequest p tags pagination)
        (.ok (page, some r))]) n hn
      simp only [describeInstances, callDescribeInstances, hcall, hnext]
      rcases hres : describeInstances c p tags n (some pg)
        ⟨s1, trace ++ [Event.DescribeInstances (describeGroupRequest p tags pagination)
          (.ok (page, some r))]⟩ with ⟨res, w2⟩
      rw [hres] at hrec
      simp only at hrec
      subst hrec
      simp [describePage_eq_map]

/-- C8. For every tag filter and every finite chain of result pages that the
adapter returns successfully, `DescribeInstances`, with fuel for every page, returns
the concatenation in page order and in within-page order of the descriptions of each
page's instances; its length is the sum of the page lengths; each description
carries the instance id, the address chosen by `getInstanceIP` and the flat tag map,
which gives each key the value of its last tag item. -/
theorem DescribeInstances_spec (c : Client σ) (p : Provisioner) (tags : TagMap) (s : σ)
    (pages : List (List InstanceAttributesType)) (fuel : Nat)
    (h : PageChain c p tags none s pages) (hf : pages.length ≤ fuel) :
    ∃ descriptions,
      (DescribeInstances c p tags fuel ⟨s, []⟩).1 = some (.ok descriptions) ∧
      descriptions = (pages.map (fun page => page.map (fun item =>
        ({ ID := item.InstanceId, LogicalID := some (getInstanceIP p item),
           Tags := flattenTags item.Tags.Tag } : Description)))).flatten ∧
      descriptions.length = (pages.map List.length).sum ∧
      ∀ page ∈ pages, ∀ item ∈ page, ∀ k,
        TagMap.get? (flattenTags item.Tags.Tag) k = currentTagValue item.Tags.Tag k := by
  refine ⟨_, describeInstances_chain c p tags none s pages h [] fuel hf, rfl, ?_, ?_⟩
  · simp [List.length_flatten, Function.comp_def]
  · intro page _ item _ k
    exact (flattenTags_correct item.Tags.Tag).2 k

/-- Witness of C8: the two pages of `pagedClient`. -/
theorem DescribeInstances_spec_witness :
    PageChain pagedClient {} [] none ()
      [[{ InstanceId := "i-1", InnerIpAddress := { IpAddress := ["10.0.0.1"] } }],
       [{ InstanceId := "i-2", InnerIpAddress := { IpAddress := ["10.0.0.2"] } }]] ∧
    [[({ InstanceId := "i-1", InnerIpAddress := { IpAddress := ["10.0.0.1"] } } :
        InstanceAttributesType)],
     [{ InstanceId := "i-2", InnerIpAddress := { IpAddress := ["10.0.0.2"] } }]].length ≤ 2 ∧
    (∃ descriptions,
      (DescribeInstances pagedClient {} [] 2 ⟨(), []⟩).1 = some (.ok descriptions) ∧
      descriptions.length = 2) :=
  have hchain : PageChain pagedClient {} [] none ()
      [[{ InstanceId := "i-1", InnerIpAddress := { IpAddress := ["10.0.0.1"] } }],
       [{ InstanceId := "i-2", InnerIpAddress := { IpAddress := ["10.0.0.2"] } }]] :=
    PageChain.next none () () _ { TotalCount := 2, PageNumber := 1, PageSize := 1 }
      { PageNumber := 2, PageSize := 1 } _ rfl (by decide)
      (PageChain.last _ () () _ (some { TotalCount := 2, PageNumber := 2, PageSize := 1 })
        rfl (by decide))
  ⟨hchain, by decide,
   (DescribeInstances_spec pagedClient {} [] () _ 2 hchain (by decide)).imp
     (fun _ h => ⟨h.1, by rw [h.2.2.1]; rfl⟩)⟩

/-! ## The loops of Provision -/

/-- The lookup loop either stops at the first failed lookup, or makes one
successful lookup per attachment, each for the identifier of its attachment, and
returns all the disks found. -/
theorem lookupVolumes_run (c : Client σ) (p : Provisioner) (zoneId : String)
    (attachments : List Attachment) :
    ∀ (volumeTags : TagMap) (volumes : List DiskItemType) (w : World σ),
      (volumeTags = [] ∨ ∃ x, volumeTags = [(VolumeTag, x)]) →
      (∃ L args err, (∀ ev ∈ L, Event.isDescribeDisks ev = true) ∧
        (lookupVolumes c p zoneId attachments volumeTags volumes w).2.trace
          = w.trace ++ L ++ [Event.DescribeDisks args (.error err)] ∧
        (lookupVolumes c p zoneId attachments volumeTags volumes w).1
          = .error "Failed while looking up volume") ∨
      (∃ lookups : List (List DiskItemType), lookups.length = attachments.length ∧
        (lookupVolumes c p zoneId attachments volumeTags volumes w).2.trace
          = w.trace ++ lookupEvents p zoneId attachments lookups ∧
        (lookupVolumes c p zoneId attachments volumeTags volumes w).1
          = .ok (volumes ++ lookups.flatten)) := by
  induction attachments with
  | nil =>
    intro volumeTags volumes w _
    exact Or.inr ⟨[], rfl, by simp [lookupVolumes, lookupEvents], by simp [lookupVolumes]⟩
  | cons a rest ih =>
    intro volumeTags volumes w hvt
    have hset : TagMap.set volumeTags VolumeTag a.ID = [(VolumeTag, a.ID)] := by
      rcases hvt with rfl | ⟨x, rfl⟩ <;> simp [TagMap.set]
    rcases hcall : c.DescribeDisks (lookupArgs p zoneId a) w.state with ⟨out, s1⟩
    cases out with
    | error err =>
      refine Or.inl ⟨[], lookupArgs p zoneId a, err, by simp, ?_, ?_⟩ <;>
        simp [lookupVolumes, hset, callDescribeDisks, lookupArgs] <;>
        simp [lookupArgs] at hcall <;> simp [hcall]
    | ok result =>
      have hstep : lookupVolumes c p zoneId (a :: rest) volumeTags volumes w
          = lookupVolumes c p zoneId rest [(VolumeTag, a.ID)] (volumes ++ result)
              ⟨s1, w.trace ++ [Event.DescribeDisks (lookupArgs p zoneId a) (.ok result)]⟩ := by
        simp only [lookupArgs] at hcall
        simp [lookupVolumes, hset, callDescribeDisks, lookupArgs, hcall]
      rw [hstep]
      rcases ih [(VolumeTag, a.ID)] (volumes ++ result)
          ⟨s1, w.trace ++ [Event.DescribeDisks (lookupArgs p zoneId a) (.ok result)]⟩
          (Or.inr ⟨a.ID, rfl⟩) with ⟨L, args, err, hL, htr, hres⟩ | ⟨lookups, hlen, htr, hres⟩
      · refine Or.inl ⟨Event.DescribeDisks (lookupArgs p zoneId a) (.ok result) :: L, args, err,
          ?_, ?_, hres⟩
        · intro ev hev
          rcases List.mem_cons.1 hev with rfl | h
          · rfl
          · exact hL ev h
        · rw [htr]; simp
      · refine Or.inr ⟨result :: lookups, by simp [hlen], ?_, ?_⟩
        · rw [htr]; simp [lookupEvents]
        · rw [hres]; simp

/-- The attachment loop either stops at the first failed attachment, after the
successful attachment of the disks before it, or attaches every disk. -/
theorem attachDisks_run (c : Client σ) (instanceID : String) (volumeIDs : List String) :
    ∀ (w : World σ),
      (∃ (n : Nat) (e : Error) (h : n < volumeIDs.length),
        (attachDisks c instanceID volumeIDs w).1 = some e ∧
        (attachDisks c instanceID volumeIDs w).2.trace
          = w.trace ++ attachEvents instanceID (volumeIDs.take n)
            ++ [Event.AttachDisk { InstanceId := instanceID, DiskId := volumeIDs[n] } (some e)]) ∨
      ((attachDisks c instanceID volumeIDs w).1 = none ∧
        (attachDisks c instanceID volumeIDs w).2.trace
          = w.trace ++ attachEvents instanceID volumeIDs) := by
  induction volumeIDs with
  | nil =>
    intro w
    exact Or.inr ⟨rfl, by simp [attachDisks, attachEvents]⟩
  | cons v rest ih =>
    intro w
    rcases hcall : c.AttachDisk { InstanceId := instanceID, DiskId := v } w.state with ⟨err, s1⟩
    cases err with
    | some e =>
      refine Or.inl ⟨0, e, by simp, ?_, ?_⟩ <;>
        simp [attachDisks, callAttachDisk, hcall, attachEvents]
    | none =>
      have hstep : attachDisks c instanceID (v :: rest) w
          = attachDisks c instanceID rest
              ⟨s1, w.trace ++ [Event.AttachDisk { InstanceId := instanceID, DiskId := v } none]⟩ := by
        simp [attachDisks, callAttachDisk, hcall]
      rw [hstep]
      rcases ih ⟨s1, w.trace ++ [Event.AttachDisk { InstanceId := instanceID, DiskId := v } none]⟩
        with ⟨n, e, hn, hres, htr⟩ | ⟨hres, htr⟩
      · refine Or.inl ⟨n + 1, e, by simpa using hn, hres, ?_⟩
        rw [htr]; simp [attachEvents]
      · refine Or.inr ⟨hres, ?_⟩
        rw [htr]; simp [attachEvents]

/-- The disk ids are collected in the order of the disks. -/
theorem foldl_diskIds (volumes : List DiskItemType) (acc : List String) :
    volumes.foldl (fun volumeIDs volume => volumeIDs ++ [volume.DiskId]) acc
      = acc ++ volumes.map (fun d => d.DiskId) := by
  induction volumes generalizing acc with
  | nil => simp
  | cons d rest ih => simp [ih]

/-- The three exits of volume resolution: a failed lookup; one successful lookup
per attachment with a wrong total; one successful lookup per attachment with the
right total, and then the ids of all the disks found, in order. -/
theorem resolveVolumes_run (c : Client σ) (p : Provisioner) (request : createInstanceRequest)
    (spec : Spec) (w : World σ) :
    (∃ L args err, (∀ ev ∈ L, Event.isDescribeDisks ev = true) ∧
      (resolveVolumes c p request spec w).2.trace
        = w.trace ++ L ++ [Event.DescribeDisks args (.error err)] ∧
      (resolveVolumes c p request spec w).1 = .error "Failed while looking up volume") ∨
    (∃ lookups : List (List DiskItemType), lookups.length = spec.Attachments.length ∧
      lookups.flatten.length ≠ spec.Attachments.length ∧
      (resolveVolumes c p request spec w).2.trace
        = w.trace ++ lookupEvents p request.CreateInstanceArgs.ZoneId spec.Attachments lookups ∧
      (resolveVolumes c p request spec w).1
        = .error ("Not all required volumes found to attach.  Wanted "
          ++ c.FormatAttachments spec.Attachments ++ ", found "
          ++ c.FormatVolumes lookups.flatten)) ∨
    (∃ lookups : List (List DiskItemType), lookups.length = spec.Attachments.length ∧
      lookups.flatten.length = spec.Attachments.length ∧
      (resolveVolumes c p request spec w).2.trace
        = w.trace ++ lookupEvents p request.CreateInstanceArgs.ZoneId spec.Attachments lookups ∧
      (resolveVolumes c p request spec w).1
        = .ok (lookups.flatten.map (fun d => d.DiskId))) := by
  by_cases hatt : 0 < spec.Attachments.length
  · rcases lookupVolumes_run c p request.CreateInstanceArgs.ZoneId spec.Attachments [] [] w
        (Or.inl rfl) with ⟨L, args, err, hL, htr, hres⟩ | ⟨lookups, hlen, htr, hres⟩
    · refine Or.inl ⟨L, args, err, hL, ?_, ?_⟩
      · rcases hlv : lookupVolumes c p request.CreateInstanceArgs.ZoneId spec.Attachments [] [] w
          with ⟨out, w1⟩
        rw [hlv] at htr hres
        simp only at hres
        subst hres
        simpa [resolveVolumes, hatt, hlv] using htr
      · rcases hlv : lookupVolumes c p request.CreateInstanceArgs.ZoneId spec.Attachments [] [] w
          with ⟨out, w1⟩
        rw [hlv] at hres
        simp only at hres
        subst hres
        simp [resolveVolumes, hatt, hlv]
    · rcases hlv : lookupVolumes c p request.CreateInstanceArgs.ZoneId spec.Attachments [] [] w
        with ⟨out, w1⟩
      rw [hlv] at htr hres
      simp only [List.nil_append] at htr hres
      subst hres
      by_cases hcount : lookups.flatten.length = spec.Attachments.length
      · have hc := hcount
        simp only [List.length_flatten] at hc
        refine Or.inr (Or.inr ⟨lookups, hlen, hcount, ?_, ?_⟩)
        · simpa [resolveVolumes, hatt, hlv, hc] using htr
        · simp [resolveVolumes, hatt, hlv, hc, foldl_diskIds]
      · have hc := hcount
        simp only [List.length_flatten] at hc
        refine Or.inr (Or.inl ⟨lookups, hlen, hcount, ?_, ?_⟩)
        · simpa [resolveVolumes, hatt, hlv, hc] using htr
        · simp [resolveVolumes, hatt, hlv, hc]
  · have hnil : spec.Attachments = [] := by
      cases h : spec.Attachments with
      | nil => rfl
      | cons a rest => simp [h] at hatt
    refine Or.inr (Or.inr ⟨[], by simp [hnil], by simp [hnil], ?_, ?_⟩)
    · simp [resolveVolumes, hnil, lookupEvents]
    · simp [resolveVolumes, hnil]

/-! ## The exits of Provision -/

/-- The defaults of the creation request leave the VSwitch as parsed. -/
theorem buildCreateInstanceArgs_VSwitchId (p : Provisioner) (spec : Spec)
    (request : createInstanceRequest) (token : String) :
    (buildCreateInstanceArgs p spec request token).VSwitchId
      = request.CreateInstanceArgs.VSwitchId := by
  unfold buildCreateInstanceArgs
  simp only [isUserDataSupported]
  split_ifs <;> rfl

/-- The defaults of the creation request leave the password as parsed. -/
theorem buildCreateInstanceArgs_Password (p : Provisioner) (spec : Spec)
    (request : createInstanceRequest) (token : String) :
    (buildCreateInstanceArgs p spec request token).Password
      = request.CreateInstanceArgs.Password := by
  unfold buildCreateInstanceArgs
  simp only [isUserDataSupported]
  split_ifs <;> rfl

/-- Trace of `callGenerateClientToken`. -/
theorem callGenerateClientToken_trace (c : Client σ) (w : World σ) :
    (callGenerateClientToken c w).2.trace
      = w.trace ++ [Event.GenerateClientToken (callGenerateClientToken c w).1] := rfl

/-- Trace of `callCreateInstance`. -/
theorem callCreateInstance_trace {c : Client σ} {args : CreateInstanceArgs} {w w1 : World σ}
    {out : Outcome String} (h : callCreateInstance c args w = (out, w1)) :
    w1.trace = w.trace ++ [Event.CreateInstance args out] := by
  obtain ⟨rfl, rfl⟩ := Prod.mk.inj h
  rfl

/-- Trace of `callWaitForInstance`. -/
theorem callWaitForInstance_trace {c : Client σ} {i : String} {st : InstanceStatus} {t : Nat}
    {w w1 : World σ} {err : Option Error} (h : callWaitForInstance c i st t w = (err, w1)) :
    w1.trace = w.trace ++ [Event.WaitForInstance i st t err] := by
  obtain ⟨rfl, rfl⟩ := Prod.mk.inj h
  rfl

/-- Trace of `callAllocatePublicIpAddress`. -/
theorem callAllocatePublicIpAddress_trace (c : Client σ) (i : String) (w : World σ) :
    ∃ out, (callAllocatePublicIpAddress c i w).2.trace
      = w.trace ++ [Event.AllocatePublicIpAddress i out] := ⟨_, rfl⟩

/-- Trace of `tagInstance`: one `AddTags` call, whose error it returns. -/
theorem tagInstance_trace (c : Client σ) (p : Provisioner) (i : String)
    (systemTags userTags : TagMap) (w : World σ) :
    ∃ tagArgs, (tagInstance c p i systemTags userTags w).2.trace
      = w.trace ++ [Event.AddTags tagArgs (tagInstance c p i systemTags userTags w).1] :=
  ⟨_, rfl⟩

/-- Trace of `callStartInstance`. -/
theorem callStartInstance_trace (c : Client σ) (i : String) (w : World σ) :
    ∃ err, (callStartInstance c i w).2.trace = w.trace ++ [Event.StartInstance i err] :=
  ⟨_, rfl⟩

/-- Trace of `describeInstance`. -/
theorem describeInstance_trace {c : Client σ} {i : String} {w w1 : World σ}
    {out : Outcome InstanceAttributesType} (h : describeInstance c i w = (out, w1)) :
    w1.trace = w.trace ++ [Event.DescribeInstanceAttribute i out] := by
  unfold describeInstance at h
  split at h
  · rename_i err w2 heq
    obtain ⟨rfl, rfl⟩ := Prod.mk.inj h
    obtain ⟨h1, rfl⟩ := Prod.mk.inj heq
    simp only [callDescribeInstanceAttribute] at h1 ⊢
    rw [h1]
  · rename_i result w2 heq
    obtain ⟨rfl, rfl⟩ := Prod.mk.inj h
    obtain ⟨h1, rfl⟩ := Prod.mk.inj heq
    simp only [callDescribeInstanceAttribute] at h1 ⊢
    rw [h1]

/-- Trace of `getSSHClient`. -/
theorem getSSHClient_trace {c : Client σ} {ip user pw : String} {port : Nat} {w w1 : World σ}
    {out : Outcome (SSHClient σ)} (h : getSSHClient c ip port user pw w = (out, w1)) :
    w1.trace = w.trace ++ [Event.NewSSHClient user ip port [pw] out.err] := by
  obtain ⟨rfl, rfl⟩ := Prod.mk.inj h
  rfl

/-- Trace of `callSSHOutput`. -/
theorem callSSHOutput_trace {sshClient : SSHClient σ} {cmd : String} {w w1 : World σ}
    {out : Outcome String} (h : callSSHOutput sshClient cmd w = (out, w1)) :
    w1.trace = w.trace ++ [Event.SSHOutput cmd out] := by
  obtain ⟨rfl, rfl⟩ := Prod.mk.inj h
  rfl

/-- Every run of `Provision` from an empty trace takes one of the exits listed by
`ProvisionRun`. -/
theorem Provision_run (c : Client σ) (p : Provisioner) (spec : Spec) (s : σ) :
    ProvisionRun c p spec (Provision c p spec ⟨s, []⟩).2.trace (Provision c p spec ⟨s, []⟩).1 := by
  rcases hrun : Provision c p spec ⟨s, []⟩ with ⟨res, wf⟩
  simp only
  unfold Provision at hrun
  split at hrun
  · rename_i hP
    cases hrun
    exact ProvisionRun.noProperties hP
  rename_i raw hP
  split at hrun
  · rename_i err hU
    cases hrun
    exact ProvisionRun.badProperties raw err hP hU
  rename_i request hU
  simp only at hrun
  have hrv := resolveVolumes_run c p (withRegion p request) spec ⟨s, []⟩
  simp only [List.nil_append] at hrv
  split at hrun
  · rename_i err w1 hres
    cases hrun
    rw [hres] at hrv
    rcases hrv with ⟨L, args, err', hL, htr, hout⟩ | ⟨lookups, hlen, hcount, htr, hout⟩ |
      ⟨lookups, hlen, hcount, htr, hout⟩
    · simp only at htr hout
      cases hout
      rw [htr]
      exact ProvisionRun.lookupFailed raw request L args err' hP hU hL
    · simp only at htr hout
      cases hout
      rw [htr]
      exact ProvisionRun.mismatch raw request lookups hP hU hlen hcount
    · simp at hout
  rename_i volumeIDs w1 hres
  rw [hres] at hrv
  rcases hrv with ⟨L, args, err', hL, htr, hout⟩ | ⟨lookups, hlen, hcount, htr, hout⟩ |
    ⟨lookups, hlen, hcount, htr1, hout⟩
  · simp at hout
  · simp at hout
  simp only at htr1 hout
  cases hout
  have hR : Resolved c spec raw request lookups := ⟨hP, hU, hlen, hcount⟩
  have htr2 := callGenerateClientToken_trace c w1
  generalize (callGenerateClientToken c w1).1 = token at hrun htr2
  generalize (callGenerateClientToken c w1).2 = w2 at hrun htr2
  split at hrun
  · rename_i err w3 hcr
    cases hrun
    rw [callCreateInstance_trace hcr, htr2, htr1]
    simpa [withRegion] using ProvisionRun.createFailed (p := p) raw request lookups token err hR
  rename_i i w3 hcr
  have htr3 : w3.trace = createdEvents p spec request lookups token i := by
    rw [callCreateInstance_trace hcr, htr2, htr1]
    simp [createdEvents, withRegion]
  split at hrun
  · rename_i err w4 hw
    cases hrun
    rw [callWaitForInstance_trace hw, htr3]
    exact ProvisionRun.stoppedWaitFailed raw request lookups token i err hR
  rename_i w4 hw
  have htr4 := callWaitForInstance_trace hw
  obtain ⟨w5, alloc, hA, htr5, hw5⟩ : ∃ w5 alloc, AllocShape i alloc ∧
      w5.trace = w4.trace ++ alloc ∧
      (if ¬p.PrivateIPOnly = true ∧
          (buildCreateInstanceArgs p spec (withRegion p request) token).VSwitchId = "" then
        (callAllocatePublicIpAddress c i w4).2 else w4) = w5 := by
    split_ifs
    · obtain ⟨out, ho⟩ := callAllocatePublicIpAddress_trace c i w4
      exact ⟨_, _, Or.inr ⟨out, rfl⟩, ho, rfl⟩
    · exact ⟨_, [], Or.inl rfl, by simp, rfl⟩
  rw [hw5] at hrun
  obtain ⟨tagArgs, htr6⟩ := tagInstance_trace c p i spec.Tags (withRegion p request).Tags w5
  generalize (tagInstance c p i spec.Tags (withRegion p request).Tags w5).1 = terr at hrun htr6
  generalize (tagInstance c p i spec.Tags (withRegion p request).Tags w5).2 = w6 at hrun htr6
  cases terr with
  | some e =>
    simp only [ne_eq, not_false_eq_true, if_true, reduceCtorEq] at hrun
    cases hrun
    rw [htr6, htr5, htr4, htr3]
    exact ProvisionRun.tagFailed raw request lookups token i alloc tagArgs e hR hA
  | none =>
    simp only [ne_eq, not_true_eq_false, if_false] at hrun
    have htr6' : w6.trace = taggedEvents p spec request lookups token i alloc tagArgs := by
      rw [htr6, htr5, htr4, htr3]; rfl
    have had := attachDisks_run c i (lookups.flatten.map (fun d => d.DiskId)) w6
    split at hrun
    · rename_i err w7 hat
      cases hrun
      rw [hat] at had
      rcases had with ⟨n, e, hn, herr, htr7⟩ | ⟨herr, -⟩
      · simp only at herr htr7
        obtain rfl : err = e := Option.some.inj herr
        rw [htr7, htr6']
        exact ProvisionRun.attachFailed raw request lookups token i alloc tagArgs n err hn hR hA
      · simp at herr
    rename_i w7 hat
    rw [hat] at had
    rcases had with ⟨n, e, hn, herr, -⟩ | ⟨-, htr7⟩
    · simp at herr
    simp only at htr7
    obtain ⟨startErr, htr8⟩ := callStartInstance_trace c i w7
    generalize (callStartInstance c i w7).2 = w8 at hrun htr8
    rcases hw9 : callWaitForInstance c i InstanceStatus.Running timeout w8 with ⟨rerr, w9⟩
    have htr9 := callWaitForInstance_trace hw9
    rw [hw9] at hrun
    simp only at hrun
    cases rerr with
    | some e =>
      simp only [reduceCtorEq, if_false] at hrun
      obtain ⟨rfl, rfl⟩ := Prod.mk.inj hrun
      rw [htr9, htr8, htr7, htr6']
      simpa using ProvisionRun.runningWaitFailed raw request lookups token i alloc tagArgs
        startErr e hR hA
    | none =>
      simp only [if_true] at hrun
      have htr9' : w9.trace
          = runningEvents p spec request lookups token i alloc tagArgs startErr := by
        rw [htr9, htr8, htr7, htr6']; simp [runningEvents]
      have hsup : isUserDataSupported (buildCreateInstanceArgs p spec (withRegion p request) token)
          = true ↔ ¬ request.CreateInstanceArgs.VSwitchId = "" := by
        simp [isUserDataSupported, buildCreateInstanceArgs_VSwitchId, withRegion]
      have hpw : (buildCreateInstanceArgs p spec (withRegion p request) token).Password
          = request.CreateInstanceArgs.Password := by
        simp [buildCreateInstanceArgs_Password, withRegion]
      simp only [hsup, hpw] at hrun
      split at hrun
      · rename_i hcond
        have hInit : spec.Init ≠ "" := hcond.1
        have hVS : request.CreateInstanceArgs.VSwitchId = "" := not_not.1 hcond.2
        split at hrun
        · rename_i err w10 hd
          obtain ⟨rfl, rfl⟩ := Prod.mk.inj hrun
          rw [describeInstance_trace hd, htr9']
          exact ProvisionRun.describeFailed raw request lookups token i alloc tagArgs startErr err
            hR hA hInit hVS
        rename_i inst w10 hd
        have htr10 := describeInstance_trace hd
        split at hrun
        · rename_i err w11 hs
          obtain ⟨rfl, rfl⟩ := Prod.mk.inj hrun
          rw [getSSHClient_trace hs, htr10, htr9']
          simpa [Outcome.err] using ProvisionRun.sshFailed raw request lookups token i alloc
            tagArgs startErr inst err hR hA hInit hVS
        rename_i sshClient w11 hs
        have htr11 := getSSHClient_trace hs
        split at hrun
        · rename_i err w12 ho
          obtain ⟨rfl, rfl⟩ := Prod.mk.inj hrun
          rw [callSSHOutput_trace ho, htr11, htr10, htr9']
          simpa [Outcome.err] using ProvisionRun.configured raw request lookups token i alloc
            tagArgs startErr inst (.error err) hR hA hInit hVS
        · rename_i value w12 ho
          obtain ⟨rfl, rfl⟩ := Prod.mk.inj hrun
          rw [callSSHOutput_trace ho, htr11, htr10, htr9']
          simpa [Outcome.err] using ProvisionRun.configured raw request lookups token i alloc
            tagArgs startErr inst (.ok value) hR hA hInit hVS
      · rename_i hcond
        obtain ⟨rfl, rfl⟩ := Prod.mk.inj hrun
        rw [htr9']
        refine ProvisionRun.started raw request lookups token i alloc tagArgs startErr hR hA ?_
        intro h
        exact hcond ⟨h.1, not_not.2 h.2⟩

/-! ## Provision: failures after the creation -/

/-- The lookup events are calls of `DescribeDisks`. -/
theorem isDescribeDisks_of_mem_lookupEvents {p : Provisioner} {zoneId : String}
    {attachments : List Attachment} {lookups : List (List DiskItemType)} {ev : Event}
    (h : ev ∈ lookupEvents p zoneId attachments lookups) : Event.isDescribeDisks ev = true := by
  simp only [lookupEvents, List.mem_map] at h
  obtain ⟨x, -, rfl⟩ := h
  rfl

/-- The attach events are successful calls of `AttachDisk`. -/
theorem isAttachDiskOk_of_mem_attachEvents {i : String} {volumeIDs : List String} {ev : Event}
    (h : ev ∈ attachEvents i volumeIDs) : Event.isAttachDiskOk ev = true := by
  simp only [attachEvents, List.mem_map] at h
  obtain ⟨x, -, rfl⟩ := h
  rfl

/-- An event that is no call of `DescribeDisks` is no lookup event. -/
theorem not_mem_lookupEvents {p : Provisioner} {zoneId : String}
    {attachments : List Attachment} {lookups : List (List DiskItemType)} {ev : Event}
    (h : Event.isDescribeDisks ev = false) :
    (ev ∈ lookupEvents p zoneId attachments lookups) ↔ False := by
  constructor
  · intro hm
    rw [isDescribeDisks_of_mem_lookupEvents hm] at h
    cases h
  · exact False.elim

/-- An event that is no successful call of `AttachDisk` is no attach event. -/
theorem not_mem_attachEvents {i : String} {volumeIDs : List String} {ev : Event}
    (h : Event.isAttachDiskOk ev = false) : (ev ∈ attachEvents i volumeIDs) ↔ False := by
  constructor
  · intro hm
    rw [isAttachDiskOk_of_mem_attachEvents hm] at h
    cases h
  · exact False.elim

/-- An event that is no call of `DescribeDisks` is in no list of such calls. -/
theorem not_mem_of_isDescribeDisks {L : List Event} {ev : Event}
    (hL : ∀ ev ∈ L, Event.isDescribeDisks ev = true) (h : Event.isDescribeDisks ev = false) :
    (ev ∈ L) ↔ False := by
  constructor
  · intro hm
    rw [hL ev hm] at h
    cases h
  · exact False.elim

/-- The disks found in two traces one after the other. -/
theorem disksFound_append (l1 l2 : List Event) :
    disksFound (l1 ++ l2) = disksFound l1 ++ disksFound l2 := by
  induction l1 with
  | nil => simp [disksFound]
  | cons ev rest ih =>
    cases ev with
    | DescribeDisks args out =>
      cases out <;> simp [disksFound, ih]
    | _ => simp [disksFound, ih]

/-- The disks found in the lookup events are the results of the lookups. -/
theorem disksFound_lookupEvents (p : Provisioner) (zoneId : String)
    (attachments : List Attachment) (lookups : List (List DiskItemType))
    (h : lookups.length = attachments.length) :
    disksFound (lookupEvents p zoneId attachments lookups) = lookups.flatten := by
  induction attachments generalizing lookups with
  | nil =>
    cases lookups with
    | nil => simp [lookupEvents, disksFound]
    | cons r rest => simp at h
  | cons a rest ih =>
    cases lookups with
    | nil => simp at h
    | cons r rs =>
      have hlen : rs.length = rest.length := by simpa using h
      show disksFound (Event.DescribeDisks (lookupArgs p zoneId a) (.ok r)
        :: lookupEvents p zoneId rest rs) = _
      simp [disksFound, ih rs hlen]

/-- No disk is found in the attach events. -/
theorem disksFound_attachEvents (i : String) (volumeIDs : List String) :
    disksFound (attachEvents i volumeIDs) = [] := by
  induction volumeIDs with
  | nil => simp [attachEvents, disksFound]
  | cons v rest ih =>
    simp only [attachEvents] at ih
    simp [attachEvents, disksFound, ih]

/-- C6. For every run of `Provision` with parseable properties in which no disk
lookup fails and the number of disks found by all the lookups differs from the
number of attachments requested (which cannot be for an empty attachment list),
`Provision` returns a nil id and the mismatch error, and every call of the run is a
disk lookup: neither create-instance nor attach-disk is called. -/
theorem Provision_volume_mismatch (c : Client σ) (p : Provisioner) (spec : Spec) (s : σ)
    (raw : String) (request : createInstanceRequest)
    (hprops : spec.Properties = some raw) (hparse : c.Unmarshal raw = .ok request)
    (hok : ∀ args err,
      Event.DescribeDisks args (.error err) ∉ (Provision c p spec ⟨s, []⟩).2.trace)
    (hcount : (disksFound (Provision c p spec ⟨s, []⟩).2.trace).length
      ≠ spec.Attachments.length) :
    (Provision c p spec ⟨s, []⟩).1 =
      (none, some ("Not all required volumes found to attach.  Wanted "
        ++ c.FormatAttachments spec.Attachments ++ ", found "
        ++ c.FormatVolumes (disksFound (Provision c p spec ⟨s, []⟩).2.trace))) ∧
    (∀ ev ∈ (Provision c p spec ⟨s, []⟩).2.trace,
      Event.isDescribeDisks ev = true ∧ Event.isCreateInstance ev = false ∧
      Event.isAttachDisk ev = false) := by
  have hrun := Provision_run c p spec s
  generalize (Provision c p spec ⟨s, []⟩).2.trace = tr at *
  generalize (Provision c p spec ⟨s, []⟩).1 = res at *
  cases hrun
  case noProperties hP => rw [hP] at hprops; cases hprops
  case badProperties raw' err hP hU =>
    rw [hP] at hprops; cases hprops; rw [hU] at hparse; cases hparse
  case lookupFailed raw' request' L args err hP hU hL =>
    exact absurd (by simp) (hok args err)
  case mismatch raw' request' lookups hP hU hlen hne =>
    rw [disksFound_lookupEvents _ _ _ _ hlen]
    refine ⟨rfl, ?_⟩
    intro ev hev
    have h1 := isDescribeDisks_of_mem_lookupEvents hev
    cases ev <;> simp [Event.isDescribeDisks] at h1
    exact ⟨rfl, rfl, rfl⟩
  all_goals
    rename Resolved _ _ _ _ _ => hR
    obtain ⟨-, -, hlen, hcnt⟩ := hR
    exfalso
    apply hcount
    try rename AllocShape _ _ => hA; rcases hA with rfl | ⟨out, rfl⟩
  all_goals
    simp [createdEvents, taggedEvents, runningEvents, disksFound_append,
      disksFound_lookupEvents _ _ _ _ hlen, disksFound_attachEvents, disksFound, hcnt]

/-- Witness of C6: one attachment whose lookup finds two disks. -/
theorem Provision_volume_mismatch_witness :
    (∀ args err, Event.DescribeDisks args (.error err) ∉
      (Provision sharedTagClient {}
        { Properties := some "{}", Attachments := [{ ID := "vol-a" }] } ⟨(), []⟩).2.trace) ∧
    (disksFound (Provision sharedTagClient {}
        { Properties := some "{}", Attachments := [{ ID := "vol-a" }] } ⟨(), []⟩).2.trace).length
      ≠ 1 ∧
    (Provision sharedTagClient {}
        { Properties := some "{}", Attachments := [{ ID := "vol-a" }] } ⟨(), []⟩).1.1 = none :=
  have hok : ∀ args err, Event.DescribeDisks args (.error err) ∉
      (Provision sharedTagClient {}
        { Properties := some "{}", Attachments := [{ ID := "vol-a" }] } ⟨(), []⟩).2.trace := by
    intro args err h
    have htr : (Provision sharedTagClient {}
        { Properties := some "{}", Attachments := [{ ID := "vol-a" }] } ⟨(), []⟩).2.trace
        = [Event.DescribeDisks (lookupArgs {} "" { ID := "vol-a" })
            (.ok [{ DiskId := "d-1" }, { DiskId := "d-2" }])] := by decide
    rw [htr] at h
    simp at h
  ⟨hok, by decide,
   congrArg Prod.fst (Provision_volume_mismatch sharedTagClient {}
      { Properties := some "{}", Attachments := [{ ID := "vol-a" }] } () "{}" {} rfl rfl hok
      (by decide)).1⟩

/-! ## Provision: remote configuration -/

/-- Replaying two traces one after the other. -/
theorem replay_append (c : Client σ) (l1 l2 : List Event) (st : σ × Option (SSHClient σ)) :
    replay c (l1 ++ l2) st = (replay c l1 st).bind (replay c l2) := by
  induction l1 generalizing st with
  | nil => simp [replay]
  | cons ev rest ih =>
    simp only [List.cons_append, replay]
    cases stepEvent c st ev with
    | none => simp
    | some st1 => simp [ih]

/-- Replaying a trace and one more call. -/
theorem replay_snoc {c : Client σ} {l : List Event} {ev : Event}
    {st st1 st2 : σ × Option (SSHClient σ)}
    (h1 : replay c l st = some st1) (h2 : stepEvent c st1 ev = some st2) :
    replay c (l ++ [ev]) st = some st2 := by
  simp [replay_append, h1, replay, h2]

/-- A replay of a trace and one more call is a replay of the trace followed by
the replay of the call. -/
theorem replay_snoc_inv {c : Client σ} {l : List Event} {ev : Event}
    {st st2 : σ × Option (SSHClient σ)}
    (h : replay c (l ++ [ev]) st = some st2) :
    ∃ st1, replay c l st = some st1 ∧ stepEvent c st1 ev = some st2 := by
  rw [replay_append] at h
  cases h1 : replay c l st with
  | none => simp [h1] at h
  | some st1 =>
    refine ⟨st1, rfl, ?_⟩
    simpa [h1, replay] using h

/-- `callDescribeDisks` keeps the trace faithful. -/
theorem Faithful_callDescribeDisks {c : Client σ} {s0 : σ} {w : World σ}
    {ssh : Option (SSHClient σ)} (args : DescribeDisksArgs) (h : Faithful c s0 w ssh) :
    Faithful c s0 (callDescribeDisks c args w).2 ssh :=
  replay_snoc h (by simp [stepEvent]; rfl)

/-- `callGenerateClientToken` keeps the trace faithful. -/
theorem Faithful_callGenerateClientToken {c : Client σ} {s0 : σ} {w : World σ}
    {ssh : Option (SSHClient σ)} (h : Faithful c s0 w ssh) :
    Faithful c s0 (callGenerateClientToken c w).2 ssh :=
  replay_snoc h (by simp [stepEvent]; rfl)

/-- `callCreateInstance` keeps the trace faithful. -/
theorem Faithful_callCreateInstance {c : Client σ} {s0 : σ} {w : World σ}
    {ssh : Option (SSHClient σ)} (args : CreateInstanceArgs) (h : Faithful c s0 w ssh) :
    Faithful c s0 (callCreateInstance c args w).2 ssh :=
  replay_snoc h (by simp [stepEvent]; rfl)

/-- `callWaitForInstance` keeps the trace faithful. -/
theorem Faithful_callWaitForInstance {c : Client σ} {s0 : σ} {w : World σ}
    {ssh : Option (SSHClient σ)} (i : String) (status : InstanceStatus) (t : Nat)
    (h : Faithful c s0 w ssh) :
    Faithful c s0 (callWaitForInstance c i status t w).2 ssh :=
  replay_snoc h (by simp [stepEvent]; rfl)

/-- `callAllocatePublicIpAddress` keeps the trace faithful. -/
theorem Faithful_callAllocatePublicIpAddress {c : Client σ} {s0 : σ} {w : World σ}
    {ssh : Option (SSHClient σ)} (i : String) (h : Faithful c s0 w ssh) :
    Faithful c s0 (callAllocatePublicIpAddress c i w).2 ssh :=
  replay_snoc h (by simp [stepEvent]; rfl)

/-- `tagInstance` keeps the trace faithful. -/
theorem Faithful_tagInstance {c : Client σ} {s0 : σ} {w : World σ}
    {ssh : Option (SSHClient σ)} (p : Provisioner) (i : String) (systemTags userTags : TagMap)
    (h : Faithful c s0 w ssh) :
    Faithful c s0 (tagInstance c p i systemTags userTags w).2 ssh :=
  replay_snoc h (by simp [stepEvent]; rfl)

/-- `callAttachDisk` keeps the trace faithful. -/
theorem Faithful_callAttachDisk {c : Client σ} {s0 : σ} {w : World σ}
    {ssh : Option (SSHClient σ)} (args : AttachDiskArgs) (h : Faithful c s0 w ssh) :
    Faithful c s0 (callAttachDisk c args w).2 ssh :=
  replay_snoc h (by simp [stepEvent]; rfl)

/-- `callStartInstance` keeps the trace faithful. -/
theorem Faithful_callStartInstance {c : Client σ} {s0 : σ} {w : World σ}
    {ssh : Option (SSHClient σ)} (i : String) (h : Faithful c s0 w ssh) :
    Faithful c s0 (callStartInstance c i w).2 ssh :=
  replay_snoc h (by simp [stepEvent]; rfl)

/-- `describeInstance` keeps the trace faithful. -/
theorem Faithful_describeInstance {c : Client σ} {s0 : σ} {w : World σ}
    {ssh : Option (SSHClient σ)} (i : String) (h : Faithful c s0 w ssh) :
    Faithful c s0 (describeInstance c i w).2 ssh := by
  have : (describeInstance c i w).2 = (callDescribeInstanceAttribute c i w).2 := by
    unfold describeInstance
    split <;> rename_i heq <;> rw [heq]
  rw [this]
  exact replay_snoc h (by simp [stepEvent]; rfl)

/-- `getSSHClient` keeps the trace faithful; on success the session it returns is
the open one. -/
theorem Faithful_getSSHClient {c : Client σ} {s0 : σ} {w : World σ}
    {ssh : Option (SSHClient σ)} (ip user pw : String) (port : Nat)
    (h : Faithful c s0 w ssh) :
    Faithful c s0 (getSSHClient c ip port user pw w).2
      (match (getSSHClient c ip port user pw w).1 with
        | .ok sshClient => some sshClient
        | .error _ => ssh) := by
  refine replay_snoc h ?_
  simp only [stepEvent, getSSHClient, callNewSSHClient]
  rcases c.NewSSHClient user ip port [pw] w.state with ⟨r, s1⟩
  cases r <;> simp [Outcome.err]

/-- `callSSHOutput` on the open session keeps the trace faithful. -/
theorem Faithful_callSSHOutput {c : Client σ} {s0 : σ} {w : World σ}
    (sshClient : SSHClient σ) (command : String) (h : Faithful c s0 w (some sshClient)) :
    Faithful c s0 (callSSHOutput sshClient command w).2 (some sshClient) :=
  replay_snoc h (by simp [stepEvent]; rfl)

/-- The lookup loop keeps the trace faithful. -/
theorem Faithful_lookupVolumes {c : Client σ} {s0 : σ} {ssh : Option (SSHClient σ)}
    (p : Provisioner) (zoneId : String) (attachments : List Attachment) :
    ∀ (volumeTags : TagMap) (volumes : List DiskItemType) (w : World σ),
      Faithful c s0 w ssh →
      Faithful c s0 (lookupVolumes c p zoneId attachments volumeTags volumes w).2 ssh := by
  induction attachments with
  | nil => intro _ _ w h; exact h
  | cons a rest ih =>
    intro volumeTags volumes w h
    have h1 := Faithful_callDescribeDisks (c := c)
      { RegionId := p.Region, ZoneId := zoneId, Portable := some true,
        Tag := TagMap.set volumeTags VolumeTag a.ID } h
    simp only [lookupVolumes]
    split
    · rename_i heq
      rw [heq] at h1
      exact h1
    · rename_i heq
      rw [heq] at h1
      exact ih _ _ _ h1

/-- Volume resolution keeps the trace faithful. -/
theorem Faithful_resolveVolumes {c : Client σ} {s0 : σ} {w : World σ}
    {ssh : Option (SSHClient σ)} (p : Provisioner) (request : createInstanceRequest)
    (spec : Spec) (h : Faithful c s0 w ssh) :
    Faithful c s0 (resolveVolumes c p request spec w).2 ssh := by
  have h1 := Faithful_lookupVolumes (c := c) p request.CreateInstanceArgs.ZoneId
    spec.Attachments [] [] w h
  unfold resolveVolumes
  simp only
  split
  · split
    · rename_i heq; rw [heq] at h1; exact h1
    · rename_i heq
      rw [heq] at h1
      split <;> exact h1
  · exact h

/-- The attachment loop keeps the trace faithful. -/
theorem Faithful_attachDisks {c : Client σ} {s0 : σ} {ssh : Option (SSHClient σ)}
    (i : String) (volumeIDs : List String) :
    ∀ (w : World σ), Faithful c s0 w ssh →
      Faithful c s0 (attachDisks c i volumeIDs w).2 ssh := by
  induction volumeIDs with
  | nil => intro w h; exact h
  | cons v rest ih =>
    intro w h
    have h1 := Faithful_callAttachDisk (c := c) { InstanceId := i, DiskId := v } h
    simp only [attachDisks]
    split
    · rename_i heq; rw [heq] at h1; exact h1
    · rename_i heq; rw [heq] at h1; exact ih _ h1

/-- The trace of a run of `Provision` is faithful to the adapter: every outcome it
records is the one the adapter returns on the state the earlier calls left, and the
final state is the one the last call leaves. -/
theorem Provision_faithful (c : Client σ) (p : Provisioner) (spec : Spec) (s : σ) :
    ∃ ssh, Faithful c s (Provision c p spec ⟨s, []⟩).2 ssh := by
  have h0 : Faithful c s ⟨s, []⟩ none := rfl
  rcases hrun : Provision c p spec ⟨s, []⟩ with ⟨res, wf⟩
  simp only
  unfold Provision at hrun
  split at hrun
  · cases hrun; exact ⟨_, h0⟩
  split at hrun
  · cases hrun; exact ⟨_, h0⟩
  rename_i request hU
  simp only at hrun
  have h1 := Faithful_resolveVolumes (c := c) p (withRegion p request) spec h0
  split at hrun
  · rename_i err w1 hres
    cases hrun
    rw [hres] at h1
    exact ⟨_, h1⟩
  rename_i volumeIDs w1 hres
  rw [hres] at h1
  simp only at h1
  have h2 := Faithful_callGenerateClientToken h1
  generalize (callGenerateClientToken c w1).1 = token at hrun
  generalize (callGenerateClientToken c w1).2 = w2 at hrun h2
  have h3 := Faithful_callCreateInstance (buildCreateInstanceArgs p spec (withRegion p request) token) h2
  split at hrun
  · rename_i err w3 hcr
    cases hrun
    rw [hcr] at h3
    exact ⟨_, h3⟩
  rename_i i w3 hcr
  rw [hcr] at h3
  simp only at h3
  have h4 := Faithful_callWaitForInstance i InstanceStatus.Stopped timeout h3
  split at hrun
  · rename_i err w4 hw
    cases hrun
    rw [hw] at h4
    exact ⟨_, h4⟩
  rename_i w4 hw
  rw [hw] at h4
  simp only at h4
  obtain ⟨w5, h5, hw5⟩ : ∃ w5, Faithful c s w5 none ∧
      (if ¬p.PrivateIPOnly = true ∧
          (buildCreateInstanceArgs p spec (withRegion p request) token).VSwitchId = "" then
        (callAllocatePublicIpAddress c i w4).2 else w4) = w5 := by
    split_ifs
    · exact ⟨_, Faithful_callAllocatePublicIpAddress i h4, rfl⟩
    · exact ⟨_, h4, rfl⟩
  rw [hw5] at hrun
  have h6 := Faithful_tagInstance p i spec.Tags (withRegion p request).Tags h5
  generalize (tagInstance c p i spec.Tags (withRegion p request).Tags w5).1 = terr at hrun
  generalize (tagInstance c p i spec.Tags (withRegion p request).Tags w5).2 = w6 at hrun h6
  cases terr with
  | some e =>
    simp only [ne_eq, not_false_eq_true, if_true, reduceCtorEq] at hrun
    cases hrun
    exact ⟨_, h6⟩
  | none =>
    simp only [ne_eq, not_true_eq_false, if_false] at hrun
    have h7 := Faithful_attachDisks i volumeIDs w6 h6
    split at hrun
    · rename_i err w7 hat
      cases hrun
      rw [hat] at h7
      exact ⟨_, h7⟩
    rename_i w7 hat
    rw [hat] at h7
    simp only at h7
    have h8 := Faithful_callStartInstance i h7
    generalize (callStartInstance c i w7).2 = w8 at hrun h8
    have h9 := Faithful_callWaitForInstance i InstanceStatus.Running timeout h8
    rcases hw9 : callWaitForInstance c i InstanceStatus.Running timeout w8 with ⟨rerr, w9⟩
    rw [hw9] at hrun h9
    simp only at hrun h9
    cases rerr with
    | some e =>
      simp only [reduceCtorEq, if_false] at hrun
      obtain ⟨rfl, rfl⟩ := Prod.mk.inj hrun
      exact ⟨_, h9⟩
    | none =>
      simp only [if_true] at hrun
      split at hrun
      · have h10 := Faithful_describeInstance i h9
        split at hrun
        · rename_i err w10 hd
          obtain ⟨rfl, rfl⟩ := Prod.mk.inj hrun
          rw [hd] at h10
          exact ⟨_, h10⟩
        rename_i inst w10 hd
        rw [hd] at h10
        simp only at h10
        have h11 := Faithful_getSSHClient (getInstanceIP p inst) "root"
          (buildCreateInstanceArgs p spec (withRegion p request) token).Password 22 h10
        split at hrun
        · rename_i err w11 hs
          obtain ⟨rfl, rfl⟩ := Prod.mk.inj hrun
          rw [hs] at h11
          exact ⟨_, h11⟩
        rename_i sshClient w11 hs
        rw [hs] at h11
        simp only at h11
        have h12 := Faithful_callSSHOutput sshClient spec.Init h11
        split at hrun
        · rename_i err w12 ho
          obtain ⟨rfl, rfl⟩ := Prod.mk.inj hrun
          rw [ho] at h12
          exact ⟨_, h12⟩
        · rename_i value w12 ho
          obtain ⟨rfl, rfl⟩ := Prod.mk.inj hrun
          rw [ho] at h12
          exact ⟨_, h12⟩
      · obtain ⟨rfl, rfl⟩ := Prod.mk.inj hrun
        exact ⟨_, h9⟩

/-- A replayed describe call is the call of the adapter. -/
theorem stepEvent_describe_inv {c : Client σ} {st st1 : σ × Option (SSHClient σ)}
    {i : String} {out : Outcome InstanceAttributesType}
    (h : stepEvent c st (Event.DescribeInstanceAttribute i out) = some st1) :
    c.DescribeInstanceAttribute i st.1 = (out, st1.1) ∧ st1.2 = st.2 := by
  simp only [stepEvent] at h
  split at h
  · rename_i heq
    obtain rfl := Option.some.inj h
    exact ⟨Prod.ext heq rfl, rfl⟩
  · cases h

/-- A replayed failed opening of a session is the call of the adapter. -/
theorem stepEvent_newSSHClient_error_inv {c : Client σ} {st st1 : σ × Option (SSHClient σ)}
    {user host : String} {port : Nat} {passwords : List String} {e : Error}
    (h : stepEvent c st (Event.NewSSHClient user host port passwords (some e)) = some st1) :
    c.NewSSHClient user host port passwords st.1 = (.error e, st1.1) := by
  simp only [stepEvent] at h
  rcases hn : c.NewSSHClient user host port passwords st.1 with ⟨r, s1⟩
  rw [hn] at h
  cases r with
  | ok cl => simp at h
  | error e1 =>
    simp only at h
    split at h
    · rename_i heq
      obtain rfl := Option.some.inj heq
      obtain rfl := Option.some.inj h
      rfl
    · cases h

/-- A replayed successful opening of a session is the call of the adapter, and
its session is the open one. -/
theorem stepEvent_newSSHClient_ok_inv {c : Client σ} {st st1 : σ × Option (SSHClient σ)}
    {user host : String} {port : Nat} {passwords : List String}
    (h : stepEvent c st (Event.NewSSHClient user host port passwords none) = some st1) :
    ∃ sshClient, c.NewSSHClient user host port passwords st.1 = (.ok sshClient, st1.1) ∧
      st1.2 = some sshClient := by
  simp only [stepEvent] at h
  rcases hn : c.NewSSHClient user host port passwords st.1 with ⟨r, s1⟩
  rw [hn] at h
  cases r with
  | ok cl =>
    simp only [if_true] at h
    obtain rfl := Option.some.inj h
    exact ⟨cl, rfl, rfl⟩
  | error e1 => simp at h

/-- A replayed command is the call of `Output` on the open session. -/
theorem stepEvent_SSHOutput_inv {c : Client σ} {st st1 : σ × Option (SSHClient σ)}
    {command : String} {out : Outcome String}
    (h : stepEvent c st (Event.SSHOutput command out) = some st1) :
    ∃ sshClient, st.2 = some sshClient ∧ sshClient.Output command st.1 = (out, st1.1) := by
  simp only [stepEvent] at h
  split at h
  · rename_i cl hcl
    split at h
    · rename_i heq
      obtain rfl := Option.some.inj h
      exact ⟨cl, hcl, Prod.ext heq rfl⟩
    · cases h
  · cases h


/-- C2, amended. For every run of `Provision` with a non-empty Init script and no
VSwitch in which the wait for `Running` succeeds for the instance `i`, `Provision`
returns the id `i`.  On the adapter state `s9` that the calls up to this wait leave,
it calls the adapter's describe; if that succeeds it opens the remote session with
the adapter's `NewSSHClient` at the address chosen by `getInstanceIP`, and if that
succeeds it executes the script with `Output` of the session returned, each call on
the state the call before left.  It stops at the first of these calls that fails;
the error returned is the error the adapter gave for that call, nil when the three
succeed, and the final state is the one the last call left. -/
theorem Provision_remote_configuration (c : Client σ) (p : Provisioner) (spec : Spec) (s : σ)
    (raw : String) (request : createInstanceRequest) (i : String)
    (hprops : spec.Properties = some raw) (hparse : c.Unmarshal raw = .ok request)
    (hinit : spec.Init ≠ "") (hvs : request.CreateInstanceArgs.VSwitchId = "")
    (hrunning : Event.WaitForInstance i InstanceStatus.Running timeout none
      ∈ (Provision c p spec ⟨s, []⟩).2.trace) :
    (Provision c p spec ⟨s, []⟩).1.1 = some i ∧
    ((∃ pre e s9 ssh,
        (Provision c p spec ⟨s, []⟩).2.trace
          = pre ++ [Event.WaitForInstance i InstanceStatus.Running timeout none,
                    Event.DescribeInstanceAttribute i (.error e)] ∧
        replay c (pre ++ [Event.WaitForInstance i InstanceStatus.Running timeout none])
          (s, none) = some (s9, ssh) ∧
        c.DescribeInstanceAttribute i s9 = (.error e, (Provision c p spec ⟨s, []⟩).2.state) ∧
        (Provision c p spec ⟨s, []⟩).1.2 = some e) ∨
     (∃ pre inst e s9 ssh s10,
        (Provision c p spec ⟨s, []⟩).2.trace
          = pre ++ [Event.WaitForInstance i InstanceStatus.Running timeout none,
                    Event.DescribeInstanceAttribute i (.ok inst),
                    Event.NewSSHClient "root" (getInstanceIP p inst) 22
                      [request.CreateInstanceArgs.Password] (some e)] ∧
        replay c (pre ++ [Event.WaitForInstance i InstanceStatus.Running timeout none])
          (s, none) = some (s9, ssh) ∧
        c.DescribeInstanceAttribute i s9 = (.ok inst, s10) ∧
        c.NewSSHClient "root" (getInstanceIP p inst) 22 [request.CreateInstanceArgs.Password] s10
          = (.error e, (Provision c p spec ⟨s, []⟩).2.state) ∧
        (Provision c p spec ⟨s, []⟩).1.2 = some e) ∨
     (∃ pre inst out s9 ssh s10 sshClient s11,
        (Provision c p spec ⟨s, []⟩).2.trace
          = pre ++ [Event.WaitForInstance i InstanceStatus.Running timeout none,
                    Event.DescribeInstanceAttribute i (.ok inst),
                    Event.NewSSHClient "root" (getInstanceIP p inst) 22
                      [request.CreateInstanceArgs.Password] none,
                    Event.SSHOutput spec.Init out] ∧
        replay c (pre ++ [Event.WaitForInstance i InstanceStatus.Running timeout none])
          (s, none) = some (s9, ssh) ∧
        c.DescribeInstanceAttribute i s9 = (.ok inst, s10) ∧
        c.NewSSHClient "root" (getInstanceIP p inst) 22 [request.CreateInstanceArgs.Password] s10
          = (.ok sshClient, s11) ∧
        sshClient.Output spec.Init s11 = (out, (Provision c p spec ⟨s, []⟩).2.state) ∧
        (Provision c p spec ⟨s, []⟩).1.2 = out.err)) := by
  have hrun := Provision_run c p spec s
  obtain ⟨sshF, hF⟩ := Provision_faithful c p spec s
  unfold Faithful at hF
  generalize (Provision c p spec ⟨s, []⟩).2.trace = tr at *
  generalize (Provision c p spec ⟨s, []⟩).2.state = sf at *
  generalize (Provision c p spec ⟨s, []⟩).1 = res at *
  have hreq : ∀ raw' request', spec.Properties = some raw' → c.Unmarshal raw' = .ok request' →
      request' = request := by
    intro raw' request' h1 h2
    rw [h1] at hprops; cases hprops; rw [h2] at hparse; cases hparse; rfl
  cases hrun
  case lookupFailed raw' request' L a err hP hU hL =>
    simp [not_mem_of_isDescribeDisks hL, Event.isDescribeDisks] at hrunning
  case started raw' request' lookups token i' alloc tagArgs startErr hR hA hno =>
    have := hreq raw' request' hR.1 hR.2.1
    subst this
    exact absurd ⟨hinit, hvs⟩ hno
  case describeFailed raw' request' lookups token i' alloc tagArgs startErr err hR hA h1 h2 =>
    have := hreq raw' request' hR.1 hR.2.1
    subst this
    have hi : i = i' := by
      rcases hA with rfl | ⟨out, rfl⟩ <;>
        simp [createdEvents, taggedEvents, runningEvents, not_mem_lookupEvents,
          not_mem_attachEvents, Event.isDescribeDisks, Event.isAttachDiskOk] at hrunning <;>
        exact hrunning
    subst hi
    obtain ⟨st9, hr9, hstep⟩ := replay_snoc_inv hF
    obtain ⟨hd, -⟩ := stepEvent_describe_inv hstep
    refine ⟨rfl, Or.inl ⟨taggedEvents p spec request' lookups token i alloc tagArgs ++
      attachEvents i (lookups.flatten.map (fun d => d.DiskId)) ++
      [Event.StartInstance i startErr], err, st9.1, st9.2, ?_, ?_, hd, rfl⟩⟩
    · simp [runningEvents]
    · rw [← hr9]; simp [runningEvents]
  case sshFailed raw' request' lookups token i' alloc tagArgs startErr inst err hR hA h1 h2 =>
    have := hreq raw' request' hR.1 hR.2.1
    subst this
    have hi : i = i' := by
      rcases hA with rfl | ⟨out, rfl⟩ <;>
        simp [createdEvents, taggedEvents, runningEvents, not_mem_lookupEvents,
          not_mem_attachEvents, Event.isDescribeDisks, Event.isAttachDiskOk] at hrunning <;>
        exact hrunning
    subst hi
    rw [show ∀ (l : List Event) (a b : Event), l ++ [a, b] = l ++ [a] ++ [b] from
      fun l a b => by simp] at hF
    obtain ⟨st10, hr10, hstep10⟩ := replay_snoc_inv hF
    obtain ⟨st9, hr9, hstep9⟩ := replay_snoc_inv hr10
    obtain ⟨hd, -⟩ := stepEvent_describe_inv hstep9
    have hn := stepEvent_newSSHClient_error_inv hstep10
    refine ⟨rfl, Or.inr <| Or.inl ⟨taggedEvents p spec request' lookups token i alloc tagArgs ++
      attachEvents i (lookups.flatten.map (fun d => d.DiskId)) ++
      [Event.StartInstance i startErr], inst, err, st9.1, st9.2, st10.1, ?_, ?_, hd, hn, rfl⟩⟩
    · simp [runningEvents]
    · rw [← hr9]; simp [runningEvents]
  case configured raw' request' lookups token i' alloc tagArgs startErr inst out hR hA h1 h2 =>
    have := hreq raw' request' hR.1 hR.2.1
    subst this
    have hi : i = i' := by
      rcases hA with rfl | ⟨out, rfl⟩ <;>
        simp [createdEvents, taggedEvents, runningEvents, not_mem_lookupEvents,
          not_mem_attachEvents, Event.isDescribeDisks, Event.isAttachDiskOk] at hrunning <;>
        exact hrunning
    subst hi
    rw [show ∀ (l : List Event) (a b d : Event), l ++ [a, b, d] = l ++ [a] ++ [b] ++ [d] from
      fun l a b d => by simp] at hF
    obtain ⟨st11, hr11, hstep11⟩ := replay_snoc_inv hF
    obtain ⟨st10, hr10, hstep10⟩ := replay_snoc_inv hr11
    obtain ⟨st9, hr9, hstep9⟩ := replay_snoc_inv hr10
    obtain ⟨hd, -⟩ := stepEvent_describe_inv hstep9
    obtain ⟨cl, hn, hcl⟩ := stepEvent_newSSHClient_ok_inv hstep10
    obtain ⟨cl', hcl', ho⟩ := stepEvent_SSHOutput_inv hstep11
    rw [hcl] at hcl'
    obtain rfl := Option.some.inj hcl'
    refine ⟨rfl, Or.inr <| Or.inr ⟨taggedEvents p spec request' lookups token i alloc tagArgs ++
      attachEvents i (lookups.flatten.map (fun d => d.DiskId)) ++
      [Event.StartInstance i startErr], inst, out, st9.1, st9.2, st10.1, cl, st11.1,
      ?_, ?_, hd, hn, ho, rfl⟩⟩
    · simp [runningEvents]
    · rw [← hr9]; simp [runningEvents]
  all_goals (try rename AllocShape _ _ => hA; rcases hA with rfl | ⟨out, rfl⟩)
  all_goals simp [createdEvents, taggedEvents, runningEvents, timeout, not_mem_lookupEvents,
    not_mem_attachEvents, Event.isDescribeDisks, Event.isAttachDiskOk] at hrunning


/-- Witness of the amended C2: the remote configuration succeeds on `okClient`. -/
theorem Provision_remote_configuration_witness :
    ("echo hi" : String) ≠ "" ∧
    Event.WaitForInstance "i-1" InstanceStatus.Running timeout none ∈
      (Provision okClient {} { Properties := some "{}", Init := "echo hi" } ⟨(), []⟩).2.trace ∧
    (Provision okClient {} { Properties := some "{}", Init := "echo hi" } ⟨(), []⟩).1.1
      = some "i-1" :=
  ⟨by decide, by decide,
   (Provision_remote_configuration okClient {} { Properties := some "{}", Init := "echo hi" } ()
      "{}" {} "i-1" rfl rfl (by decide) rfl (by decide)).1⟩

/-- C2 as stated fails: with a non-empty Init script and no VSwitch, when every step
up to the wait for `Running` succeeds and describing the instance fails, `Provision`
returns the id together with the describe error, not a nil error. -/
theorem Provision_describe_failure_returned :
    (Provision describeFailsClient {} { Properties := some "{}", Init := "echo hi" }
        ⟨(), []⟩).2.trace =
      [Event.GenerateClientToken "token",
       Event.CreateInstance
         { RegionId := "", ImageId := defaultUbuntuImageID, ClientToken := "token" } (.ok "i-1"),
       Event.WaitForInstance "i-1" InstanceStatus.Stopped 300 none,
       Event.AddTags ⟨"", "i-1", TagResourceType.TagResourceInstance, []⟩ none,
       Event.StartInstance "i-1" none,
       Event.WaitForInstance "i-1" InstanceStatus.Running 300 none,
       Event.DescribeInstanceAttribute "i-1" (.error "describe failed")] ∧
    (Provision describeFailsClient {} { Properties := some "{}", Init := "echo hi" }
        ⟨(), []⟩).1 = (some "i-1", some "describe failed") ∧
    ¬ (Provision describeFailsClient {} { Properties := some "{}", Init := "echo hi" }
        ⟨(), []⟩).1 = (some "i-1", none) := by
  decide

/-! ## Provision: the start of the instance -/

/-- Whatever `StartInstance` returns, a run of `Provision` that reaches it returns
the id of the instance: the nil id of line 219 is never returned. -/
theorem Provision_id_after_start (c : Client σ) (p : Provisioner) (spec : Spec) (s : σ)
    (i : String) (startErr : Option Error)
    (hstart : Event.StartInstance i startErr ∈ (Provision c p spec ⟨s, []⟩).2.trace) :
    (Provision c p spec ⟨s, []⟩).1.1 = some i := by
  have hrun := Provision_run c p spec s
  generalize (Provision c p spec ⟨s, []⟩).2.trace = tr at *
  generalize (Provision c p spec ⟨s, []⟩).1 = res at *
  cases hrun
  case lookupFailed raw request L a err hP hU hL =>
    simp [not_mem_of_isDescribeDisks hL, Event.isDescribeDisks] at hstart
  all_goals (try rename AllocShape _ _ => hA; rcases hA with rfl | ⟨out, rfl⟩)
  all_goals simp [createdEvents, taggedEvents, runningEvents, not_mem_lookupEvents,
    not_mem_attachEvents, Event.isDescribeDisks, Event.isAttachDiskOk] at hstart
  all_goals simp [hstart.1]

/-- C1 on the code: when every step before it succeeds and `StartInstance` fails,
`Provision` goes on to the wait for `Running` and returns the id with the result of
that wait, here a nil error; the start error is not returned. -/
theorem Provision_start_failure_ignored :
    (Provision startFailsClient {} { Properties := some "{}" } ⟨(), []⟩).2.trace =
      [Event.GenerateClientToken "token",
       Event.CreateInstance
         { RegionId := "", ImageId := defaultUbuntuImageID, ClientToken := "token" } (.ok "i-1"),
       Event.WaitForInstance "i-1" InstanceStatus.Stopped 300 none,
       Event.AddTags ⟨"", "i-1", TagResourceType.TagResourceInstance, []⟩ none,
       Event.StartInstance "i-1" (some "start failed"),
       Event.WaitForInstance "i-1" InstanceStatus.Running 300 none] ∧
    (Provision startFailsClient {} { Properties := some "{}" } ⟨(), []⟩).1
      = (some "i-1", none) := by
  decide

/-! ## Provision: the disks selected for attachment -/

end Aliyun
